import Mathlib

/-
Verification of the Stratum geospatial tiling and mesh-generation core.

This development is a shallow embedding, over the real numbers, of the
OSM pipeline of the Stratum repository:

  * `src/osm/coordinates.cpp` / `coordinates.hpp` — WGS84 / Web-Mercator /
    local coordinate conversion and the pure polygon/polyline geometry
    utilities (`point_to_line_distance`, Douglas-Peucker `simplify`, ...);
  * `src/osm/mesh_builder.cpp` — building / road / area / junction mesh
    generation;
  * `src/osm/tile_manager.cpp` — the uniform tile grid, `assign_data`,
    and the asynchronous build queue (`queue_tile_build_async`,
    `poll_async_builds`).

C++ `double` arithmetic is modelled by `ℝ`; `glm::dvec2` by `ℝ × ℝ`;
`std::vector` by `List`.  The external ear-clipping triangulator
(`mapbox::earcut`, a third-party header, not part of this repository) is
modelled as an explicit function parameter `tri` of the mesh builders:
it receives the list of rings (outer ring first, then holes) and returns
a flat triangle index list into the concatenated ring vertices.
-/

namespace Stratum

noncomputable section

open scoped Classical

/-- A 2-D point (`glm::dvec2`), local meters or Mercator meters. -/
abbrev Pt := ℝ × ℝ

/-! ## Constants from `coordinates.hpp` -/

/-- WGS84 Earth radius (semi-major axis) in meters (`EARTH_RADIUS_M`). -/
def EARTH_RADIUS_M : ℝ := 6378137

/-- The double literal `3.14159265358979323846`: the value written out in
`DEG_TO_RAD` / `RAD_TO_DEG` in `coordinates.hpp`, and also the value of
glibc's `M_PI` macro used in `coordinates.cpp`. -/
def M_PI : ℝ := 3.14159265358979323846

/-- Degrees-to-radians factor (`DEG_TO_RAD`). -/
def DEG_TO_RAD : ℝ := M_PI / 180

/-- Radians-to-degrees factor (`RAD_TO_DEG`). -/
def RAD_TO_DEG : ℝ := 180 / M_PI

/-- Approximate meters per degree of latitude (`METERS_PER_DEG_LAT`). -/
def METERS_PER_DEG_LAT : ℝ := 111320

/-- `std::clamp(v, lo, hi)`: `v < lo ? lo : (hi < v ? hi : v)`. -/
def clampR (v lo hi : ℝ) : ℝ := if v < lo then lo else if hi < v then hi else v

/-! ## CoordinateConverter (`coordinates.cpp`) -/

/-- `CoordinateConverter::wgs84_to_mercator`: clamps the latitude to
`±85.051128` degrees, then applies the EPSG:3857 forward projection. -/
def wgs84_to_mercator (lat lon : ℝ) : Pt :=
  let lat' := clampR lat (-85.051128) 85.051128
  (EARTH_RADIUS_M * lon * DEG_TO_RAD,
   EARTH_RADIUS_M * Real.log (Real.tan (M_PI / 4 + lat' * DEG_TO_RAD / 2)))

/-- `CoordinateConverter::mercator_to_wgs84`: inverse projection; returns
`(lat, lon)`. -/
def mercator_to_wgs84 (x y : ℝ) : Pt :=
  ((2 * Real.arctan (Real.exp (y / EARTH_RADIUS_M)) - M_PI / 2) * RAD_TO_DEG,
   (x / EARTH_RADIUS_M) * RAD_TO_DEG)

/-- The state of a `CoordinateConverter` (`m_initialized`, `m_coord_system`). -/
structure CoordinateConverter where
  initialized : Bool := false
  origin_latlon : Pt := (0, 0)
  origin_mercator : Pt := (0, 0)

/-- A freshly constructed `CoordinateConverter`. -/
def defaultConverter : CoordinateConverter := {}

/-- `CoordinateConverter::set_origin(lat, lon)`. -/
def set_origin (c : CoordinateConverter) (lat lon : ℝ) : CoordinateConverter :=
  { c with
    origin_latlon := (lat, lon)
    origin_mercator := wgs84_to_mercator lat lon
    initialized := true }

/-- `CoordinateConverter::wgs84_to_local`: Mercator minus stored origin;
plain Mercator when no origin has been set. -/
def wgs84_to_local (c : CoordinateConverter) (lat lon : ℝ) : Pt :=
  if c.initialized then
    ((wgs84_to_mercator lat lon).1 - c.origin_mercator.1,
     (wgs84_to_mercator lat lon).2 - c.origin_mercator.2)
  else wgs84_to_mercator lat lon

/-- `CoordinateConverter::local_to_wgs84`. -/
def local_to_wgs84 (c : CoordinateConverter) (x y : ℝ) : Pt :=
  if c.initialized then
    mercator_to_wgs84 (x + c.origin_mercator.1) (y + c.origin_mercator.2)
  else mercator_to_wgs84 x y

/-- The raw (unclamped) Web-Mercator forward projection, as the spec's phrase
"the projection of the clamped latitude" refers to it. -/
def mercator_project (lat lon : ℝ) : Pt :=
  (EARTH_RADIUS_M * lon * DEG_TO_RAD,
   EARTH_RADIUS_M * Real.log (Real.tan (M_PI / 4 + lat * DEG_TO_RAD / 2)))

/-! ### Facts about the projection -/

lemma M_PI_pos : (0 : ℝ) < M_PI := by norm_num [M_PI]

lemma M_PI_ne : (M_PI : ℝ) ≠ 0 := ne_of_gt M_PI_pos

lemma EARTH_RADIUS_M_pos : (0 : ℝ) < EARTH_RADIUS_M := by norm_num [EARTH_RADIUS_M]

lemma clampR_eq_self {v lo hi : ℝ} (h1 : lo ≤ v) (h2 : v ≤ hi) : clampR v lo hi = v := by
  unfold clampR
  rw [if_neg (not_lt.mpr h1), if_neg (not_lt.mpr h2)]

lemma clampR_of_hi_lt {v lo hi : ℝ} (h1 : lo ≤ hi) (h2 : hi < v) : clampR v lo hi = hi := by
  unfold clampR
  rw [if_neg (not_lt.mpr (le_trans h1 (le_of_lt h2))), if_pos h2]

lemma clampR_of_lt_lo {v lo hi : ℝ} (h2 : v < lo) : clampR v lo hi = lo := by
  unfold clampR
  rw [if_pos h2]

/-- The mercator angle `M_PI/4 + lat * DEG_TO_RAD / 2` is strictly between
`0` and `π/2` for latitudes in the clamp range. -/
lemma mercator_angle_bounds {lat : ℝ} (h1 : -85.051128 ≤ lat) (h2 : lat ≤ 85.051128) :
    0 < M_PI / 4 + lat * DEG_TO_RAD / 2 ∧ M_PI / 4 + lat * DEG_TO_RAD / 2 < Real.pi / 2 := by
  have hpi := Real.pi_gt_d6
  constructor
  · unfold DEG_TO_RAD M_PI
    nlinarith
  · unfold DEG_TO_RAD M_PI
    nlinarith

/-- Latitude component of the round trip, for latitudes in the clamp range. -/
lemma mercator_lat_roundtrip {lat : ℝ} (h1 : -85.051128 ≤ lat) (h2 : lat ≤ 85.051128) :
    (2 * Real.arctan (Real.exp
        (EARTH_RADIUS_M * Real.log (Real.tan (M_PI / 4 + lat * DEG_TO_RAD / 2))
          / EARTH_RADIUS_M)) - M_PI / 2) * RAD_TO_DEG = lat := by
  obtain ⟨hpos, hlt⟩ := mercator_angle_bounds h1 h2
  rw [mul_div_cancel_left₀ _ (ne_of_gt EARTH_RADIUS_M_pos)]
  rw [Real.exp_log (Real.tan_pos_of_pos_of_lt_pi_div_two hpos hlt)]
  have hlo : -(Real.pi / 2) < M_PI / 4 + lat * DEG_TO_RAD / 2 := by
    have := Real.pi_pos
    linarith
  rw [Real.arctan_tan hlo hlt]
  unfold DEG_TO_RAD RAD_TO_DEG
  have hMP := M_PI_ne
  field_simp
  ring

/-- Longitude component of the round trip (exact for every longitude). -/
lemma mercator_lon_roundtrip (lon : ℝ) :
    EARTH_RADIUS_M * lon * DEG_TO_RAD / EARTH_RADIUS_M * RAD_TO_DEG = lon := by
  unfold DEG_TO_RAD RAD_TO_DEG
  have hR := ne_of_gt EARTH_RADIUS_M_pos
  have hMP := M_PI_ne
  field_simp
  ring

/-- C2: for every `(lat, lon)` with `|lat| ≤ 85.051128` (the Web-Mercator
valid latitude range used by the code), `mercator_to_wgs84 ∘ wgs84_to_mercator`
is the identity, and — once an origin has been set via `set_origin` —
`local_to_wgs84 ∘ wgs84_to_local` is the identity as well.  Over the real
model the round trip is exact, hence in particular within any epsilon. -/
theorem mercator_local_roundtrip (lat lon olat olon : ℝ) (h : |lat| ≤ 85.051128) :
    mercator_to_wgs84 (wgs84_to_mercator lat lon).1 (wgs84_to_mercator lat lon).2
        = (lat, lon) ∧
    (let c := set_origin defaultConverter olat olon
     local_to_wgs84 c (wgs84_to_local c lat lon).1 (wgs84_to_local c lat lon).2
        = (lat, lon)) := by
  obtain ⟨h1, h2⟩ := abs_le.mp h
  have hclamp : clampR lat (-85.051128) 85.051128 = lat := clampR_eq_self h1 h2
  have hcore :
      mercator_to_wgs84 (wgs84_to_mercator lat lon).1 (wgs84_to_mercator lat lon).2
        = (lat, lon) := by
    unfold mercator_to_wgs84 wgs84_to_mercator
    simp only [hclamp]
    exact Prod.ext (mercator_lat_roundtrip h1 h2) (mercator_lon_roundtrip lon)
  refine ⟨hcore, ?_⟩
  show local_to_wgs84 _ _ _ = _
  have hinit : (set_origin defaultConverter olat olon).initialized = true := rfl
  unfold local_to_wgs84 wgs84_to_local
  rw [hinit]
  simp only [if_true, sub_add_cancel]
  exact hcore

/-- C6 (amended): `wgs84_to_mercator` clamps the latitude to `±85.051128`
degrees (not `±85.0511605` as the spec text has it) before projecting; the
output equals the unclamped forward projection of the clamped latitude, and
latitudes beyond the clamp bound project to the same point as the bound. -/
theorem wgs84_to_mercator_clamps (lat lon : ℝ) :
    wgs84_to_mercator lat lon = mercator_project (clampR lat (-85.051128) 85.051128) lon ∧
    (85.051128 ≤ lat → wgs84_to_mercator lat lon = wgs84_to_mercator 85.051128 lon) ∧
    (lat ≤ -85.051128 → wgs84_to_mercator lat lon = wgs84_to_mercator (-85.051128) lon) := by
  refine ⟨rfl, fun h => ?_, fun h => ?_⟩
  · unfold wgs84_to_mercator
    have hl : clampR lat (-85.051128) 85.051128 = 85.051128 := by
      rcases eq_or_lt_of_le h with h' | h'
      · rw [← h']
        exact clampR_eq_self (by norm_num) le_rfl
      · exact clampR_of_hi_lt (by norm_num) h'
    rw [hl, clampR_eq_self (by norm_num) le_rfl]
  · unfold wgs84_to_mercator
    have hl : clampR lat (-85.051128) 85.051128 = -85.051128 := by
      rcases eq_or_lt_of_le h with h' | h'
      · rw [h']
        exact clampR_eq_self le_rfl (by norm_num)
      · exact clampR_of_lt_lo h'
    rw [hl, clampR_eq_self le_rfl (by norm_num)]

/-- Witness for C6's amended theorem at `lat = 90`, `lon = 7`. -/
theorem wgs84_to_mercator_clamps_witness :
    (85.051128 : ℝ) ≤ 90 ∧ wgs84_to_mercator 90 7 = wgs84_to_mercator 85.051128 7 :=
  ⟨by norm_num, (wgs84_to_mercator_clamps 90 7).2.1 (by norm_num)⟩

/-- Counterexample for C6 as stated: at `lat = 85.05114` (beyond the code's
clamp bound `85.051128` but inside the spec's claimed bound `85.0511605`),
the code's output is not the projection of the latitude clamped to
`±85.0511605`. -/
theorem wgs84_to_mercator_claimed_bound_false :
    ¬ (wgs84_to_mercator 85.05114 0
        = mercator_project (clampR 85.05114 (-85.0511605) 85.0511605) 0) := by
  have hclaim : clampR (85.05114 : ℝ) (-85.0511605) 85.0511605 = 85.05114 :=
    clampR_eq_self (by norm_num) (by norm_num)
  have hcode : clampR (85.05114 : ℝ) (-85.051128) 85.051128 = 85.051128 :=
    clampR_of_hi_lt (by norm_num) (by norm_num)
  rw [hclaim]
  unfold wgs84_to_mercator mercator_project
  rw [hcode]
  intro heq
  have h2 := congrArg Prod.snd heq
  simp only at h2
  have hθ1 : (0 : ℝ) < M_PI / 4 + 85.051128 * DEG_TO_RAD / 2 := by
    unfold DEG_TO_RAD M_PI
    norm_num
  have hθ2lt : M_PI / 4 + (85.05114 : ℝ) * DEG_TO_RAD / 2 < Real.pi / 2 := by
    have hpi := Real.pi_gt_d6
    unfold DEG_TO_RAD M_PI
    nlinarith
  have hθ12 : M_PI / 4 + (85.051128 : ℝ) * DEG_TO_RAD / 2
      < M_PI / 4 + (85.05114 : ℝ) * DEG_TO_RAD / 2 := by
    unfold DEG_TO_RAD M_PI
    norm_num
  have hθ1lt : M_PI / 4 + (85.051128 : ℝ) * DEG_TO_RAD / 2 < Real.pi / 2 :=
    lt_trans hθ12 hθ2lt
  have hθ2 : (0 : ℝ) < M_PI / 4 + 85.05114 * DEG_TO_RAD / 2 := lt_trans hθ1 hθ12
  have hpi2 : -(Real.pi / 2) < M_PI / 4 + (85.051128 : ℝ) * DEG_TO_RAD / 2 := by
    have := Real.pi_pos
    linarith
  have hpi3 : -(Real.pi / 2) < M_PI / 4 + (85.05114 : ℝ) * DEG_TO_RAD / 2 := by
    have := Real.pi_pos
    linarith
  have htan : Real.tan (M_PI / 4 + 85.051128 * DEG_TO_RAD / 2)
      < Real.tan (M_PI / 4 + 85.05114 * DEG_TO_RAD / 2) :=
    Real.strictMonoOn_tan ⟨hpi2, hθ1lt⟩ ⟨hpi3, hθ2lt⟩ hθ12
  have hlog : Real.log (Real.tan (M_PI / 4 + 85.051128 * DEG_TO_RAD / 2))
      < Real.log (Real.tan (M_PI / 4 + 85.05114 * DEG_TO_RAD / 2)) :=
    Real.log_lt_log (Real.tan_pos_of_pos_of_lt_pi_div_two hθ1 hθ1lt) htan
  have := (mul_lt_mul_left EARTH_RADIUS_M_pos).mpr hlog
  linarith [h2, this]

/-! ## Geometry utilities (`coordinates.cpp`, namespace `geometry`) -/

/-- Euclidean length of the vector from `q` to `p` (`glm::length(p - q)`). -/
def vlen (p q : Pt) : ℝ := Real.sqrt ((p.1 - q.1) ^ 2 + (p.2 - q.2) ^ 2)

/-- `geometry::polygon_area`: signed shoelace area; `0` for fewer than 3
points. -/
def polygon_area (polygon : List Pt) : ℝ :=
  if polygon.length < 3 then 0
  else
    ((List.range polygon.length).foldl
      (fun area i =>
        let j := (i + 1) % polygon.length
        area + (polygon.getD i (0, 0)).1 * (polygon.getD j (0, 0)).2
             - (polygon.getD j (0, 0)).1 * (polygon.getD i (0, 0)).2) 0) / 2

/-- `geometry::point_to_line_distance`: distance from `point` to the segment
`[line_start, line_end]` via a clamped projection, with a fallback to the
distance to `line_start` when the squared segment length is below `1e-10`. -/
def point_to_line_distance (point line_start line_end : Pt) : ℝ :=
  let lx := line_end.1 - line_start.1
  let ly := line_end.2 - line_start.2
  let len_sq := lx * lx + ly * ly
  if len_sq < 1e-10 then vlen point line_start
  else
    let t := clampR (((point.1 - line_start.1) * lx + (point.2 - line_start.2) * ly) / len_sq)
      0 1
    vlen point (line_start.1 + t * lx, line_start.2 + t * ly)

/-- Mathematical distance from a point to the closed segment `[a, b]` — the
"perpendicular distance to its nearest segment" that the spec speaks about:
the clamped projection with no short-segment cutoff. -/
def segDist (point a b : Pt) : ℝ :=
  let lx := b.1 - a.1
  let ly := b.2 - a.2
  let len_sq := lx * lx + ly * ly
  if len_sq = 0 then vlen point a
  else
    let t := clampR (((point.1 - a.1) * lx + (point.2 - a.2) * ly) / len_sq) 0 1
    vlen point (a.1 + t * lx, a.2 + t * ly)

/-- The interior scan of `geometry::simplify`: the maximum distance from the
chord `first`–`lst` over indices `1 .. size-2`, together with its index,
starting from `(0.0, 0)` and updating on strict increase. -/
def maxInterior (points : List Pt) (first lst : Pt) : ℝ × ℕ :=
  (List.range' 1 (points.length - 2)).foldl
    (fun acc i =>
      if acc.1 < point_to_line_distance (points.getD i (0, 0)) first lst then
        (point_to_line_distance (points.getD i (0, 0)) first lst, i)
      else acc)
    (0, 0)

/-- Fuel-indexed Douglas-Peucker recursion.  The C++ `geometry::simplify`
recurses on the two halves around the farthest interior point; for
`epsilon ≥ 0` the recursion depth is bounded by the list length, so
`simplify` below instantiates the fuel with `points.length`. -/
def simplifyFuel : ℕ → List Pt → ℝ → List Pt
  | 0, points, _ => points
  | fuel + 1, points, epsilon =>
    if points.length < 3 then points
    else
      let first := points.headI
      let lst := points.getLastD (0, 0)
      let m := maxInterior points first lst
      if epsilon < m.1 then
        (simplifyFuel fuel (points.take (m.2 + 1)) epsilon).dropLast
          ++ simplifyFuel fuel (points.drop m.2) epsilon
      else [first, lst]

/-- `geometry::simplify(points, epsilon)`: recursive Douglas-Peucker. -/
def simplify (points : List Pt) (epsilon : ℝ) : List Pt :=
  simplifyFuel points.length points epsilon

/-- Two points that occur consecutively in `l`, i.e. a segment of the
polyline `l`. -/
def Adjacent (l : List Pt) (a b : Pt) : Prop :=
  ∃ i, l.get? i = some a ∧ l.get? (i + 1) = some b

/-! ### Facts about `segDist` and `point_to_line_distance` -/

lemma segDist_self_left (a b : Pt) : segDist a a b = 0 := by
  simp only [segDist]
  by_cases hz : (b.1 - a.1) * (b.1 - a.1) + (b.2 - a.2) * (b.2 - a.2) = 0
  · rw [if_pos hz]
    simp [vlen]
  · rw [if_neg hz]
    have h0 : clampR 0 0 1 = (0 : ℝ) := clampR_eq_self le_rfl (by norm_num)
    simp only [sub_self, zero_mul, zero_add, add_zero, zero_div, h0, mul_zero]
    simp [vlen]

lemma segDist_self_right (a b : Pt) : segDist b a b = 0 := by
  simp only [segDist]
  by_cases hz : (b.1 - a.1) * (b.1 - a.1) + (b.2 - a.2) * (b.2 - a.2) = 0
  · rw [if_pos hz]
    have hx : b.1 - a.1 = 0 := by nlinarith
    have hy : b.2 - a.2 = 0 := by nlinarith
    have hx' : b.1 = a.1 := by linarith
    have hy' : b.2 = a.2 := by linarith
    simp [vlen, hx', hy']
  · rw [if_neg hz, div_self hz, clampR_eq_self (by norm_num : (0:ℝ) ≤ 1) le_rfl]
    have e1 : (a.1 + 1 * (b.1 - a.1), a.2 + 1 * (b.2 - a.2)) = (b.1, b.2) := by
      rw [Prod.mk.injEq]
      constructor <;> ring
    rw [e1]
    simp [vlen]

lemma vlen_le_vlen_of_sq_le {p q r : Pt}
    (h : (p.1 - q.1) ^ 2 + (p.2 - q.2) ^ 2 ≤ (p.1 - r.1) ^ 2 + (p.2 - r.2) ^ 2) :
    vlen p q ≤ vlen p r :=
  Real.sqrt_le_sqrt h

/-- Algebraic core: the clamped projection parameter `t` satisfies
`t² · ls ≤ 2 t · dot`. -/
lemma clamp_proj_key {t dot ls : ℝ} (hls0 : 0 < ls) (ht : t = clampR (dot / ls) 0 1) :
    t * t * ls ≤ 2 * t * dot := by
  have hzn : ls ≠ 0 := ne_of_gt hls0
  rcases lt_or_le (dot / ls) 0 with hc | hc
  · rw [ht, clampR_of_lt_lo hc]
    norm_num
  · rcases lt_or_le 1 (dot / ls) with hc2 | hc2
    · rw [ht, clampR_of_hi_lt (by norm_num) hc2]
      have hdl : ls < dot := by
        have := (lt_div_iff₀ hls0).mp hc2
        linarith
      nlinarith
    · rw [ht, clampR_eq_self hc hc2]
      have e1 : dot / ls * (dot / ls) * ls = dot * dot / ls := by
        field_simp
        ring
      have e2 : 2 * (dot / ls) * dot = 2 * (dot * dot / ls) := by
        field_simp
        ring
      rw [e1, e2]
      have hd2 : 0 ≤ dot * dot / ls := div_nonneg (mul_self_nonneg dot) hls0.le
      linarith

/-- Moving from the segment start to the clamped projection point never
increases the distance to `p`. -/
lemma clamp_proj_le_start (p a b : Pt)
    (hls0 : 0 < (b.1 - a.1) * (b.1 - a.1) + (b.2 - a.2) * (b.2 - a.2)) :
    vlen p (a.1 + clampR (((p.1 - a.1) * (b.1 - a.1) + (p.2 - a.2) * (b.2 - a.2))
              / ((b.1 - a.1) * (b.1 - a.1) + (b.2 - a.2) * (b.2 - a.2))) 0 1 * (b.1 - a.1),
            a.2 + clampR (((p.1 - a.1) * (b.1 - a.1) + (p.2 - a.2) * (b.2 - a.2))
              / ((b.1 - a.1) * (b.1 - a.1) + (b.2 - a.2) * (b.2 - a.2))) 0 1 * (b.2 - a.2))
      ≤ vlen p a := by
  have hkey := clamp_proj_key hls0
    (rfl :
      clampR (((p.1 - a.1) * (b.1 - a.1) + (p.2 - a.2) * (b.2 - a.2))
        / ((b.1 - a.1) * (b.1 - a.1) + (b.2 - a.2) * (b.2 - a.2))) 0 1
      = clampR (((p.1 - a.1) * (b.1 - a.1) + (p.2 - a.2) * (b.2 - a.2))
        / ((b.1 - a.1) * (b.1 - a.1) + (b.2 - a.2) * (b.2 - a.2))) 0 1)
  apply vlen_le_vlen_of_sq_le
  nlinarith [hkey]

/-- The clamped projection is never further from `p` than the segment start;
hence the code's short-segment fallback only over-approximates the true
segment distance. -/
lemma segDist_le_point_to_line_distance (p a b : Pt) :
    segDist p a b ≤ point_to_line_distance p a b := by
  have hlsnn : (0 : ℝ) ≤ (b.1 - a.1) * (b.1 - a.1) + (b.2 - a.2) * (b.2 - a.2) := by
    nlinarith [mul_self_nonneg (b.1 - a.1), mul_self_nonneg (b.2 - a.2)]
  simp only [segDist, point_to_line_distance]
  by_cases hsmall : (b.1 - a.1) * (b.1 - a.1) + (b.2 - a.2) * (b.2 - a.2) < 1e-10
  · rw [if_pos hsmall]
    by_cases hz : (b.1 - a.1) * (b.1 - a.1) + (b.2 - a.2) * (b.2 - a.2) = 0
    · rw [if_pos hz]
    · rw [if_neg hz]
      exact clamp_proj_le_start p a b (lt_of_le_of_ne hlsnn (Ne.symm hz))
  · rw [if_neg hsmall]
    have hz : ¬ (b.1 - a.1) * (b.1 - a.1) + (b.2 - a.2) * (b.2 - a.2) = 0 := by
      intro h
      rw [h] at hsmall
      exact hsmall (by norm_num)
    rw [if_neg hz]

/-! ### Facts about the interior scan -/

/-- The accumulator of the scan step never decreases. -/
lemma scan_foldl_fst_ge (f : ℕ → ℝ) :
    ∀ (l : List ℕ) (acc : ℝ × ℕ),
      acc.1 ≤ (l.foldl (fun acc i => if acc.1 < f i then (f i, i) else acc) acc).1 := by
  intro l
  induction l with
  | nil => intro acc; exact le_rfl
  | cons x xs ih =>
    intro acc
    simp only [List.foldl_cons]
    by_cases h : acc.1 < f x
    · rw [if_pos h]
      exact le_trans (le_of_lt h) (ih (f x, x))
    · rw [if_neg h]
      exact ih acc

/-- The scan result dominates every scanned value. -/
lemma scan_foldl_mem_le (f : ℕ → ℝ) :
    ∀ (l : List ℕ) (acc : ℝ × ℕ) (i : ℕ), i ∈ l →
      f i ≤ (l.foldl (fun acc i => if acc.1 < f i then (f i, i) else acc) acc).1 := by
  intro l
  induction l with
  | nil => intro acc i h; simp at h
  | cons x xs ih =>
    intro acc i h
    simp only [List.foldl_cons]
    rcases List.mem_cons.mp h with h | h
    · subst h
      by_cases hx : acc.1 < f i
      · rw [if_pos hx]
        exact scan_foldl_fst_ge f xs (f i, i)
      · rw [if_neg hx]
        exact le_trans (not_lt.mp hx) (scan_foldl_fst_ge f xs acc)
    · by_cases hx : acc.1 < f x
      · rw [if_pos hx]
        exact ih (f x, x) i h
      · rw [if_neg hx]
        exact ih acc i h

/-- The scan result is either the initial accumulator or carries an index
from the scanned list. -/
lemma scan_foldl_eq_or_mem (f : ℕ → ℝ) :
    ∀ (l : List ℕ) (acc : ℝ × ℕ),
      (l.foldl (fun acc i => if acc.1 < f i then (f i, i) else acc) acc) = acc ∨
      (l.foldl (fun acc i => if acc.1 < f i then (f i, i) else acc) acc).2 ∈ l := by
  intro l
  induction l with
  | nil => intro acc; exact Or.inl rfl
  | cons x xs ih =>
    intro acc
    simp only [List.foldl_cons]
    by_cases hx : acc.1 < f x
    · rw [if_pos hx]
      rcases ih (f x, x) with h | h
      · exact Or.inr (by rw [h]; exact List.mem_cons_self x xs)
      · exact Or.inr (List.mem_cons_of_mem x h)
    · rw [if_neg hx]
      rcases ih acc with h | h
      · exact Or.inl h
      · exact Or.inr (List.mem_cons_of_mem x h)

lemma maxInterior_fst_nonneg (points : List Pt) (a b : Pt) :
    0 ≤ (maxInterior points a b).1 := by
  unfold maxInterior
  exact scan_foldl_fst_ge (fun i => point_to_line_distance (points.getD i (0, 0)) a b)
    _ (0, 0)

lemma maxInterior_ge (points : List Pt) (a b : Pt) {i : ℕ}
    (h : i ∈ List.range' 1 (points.length - 2)) :
    point_to_line_distance (points.getD i (0, 0)) a b ≤ (maxInterior points a b).1 := by
  unfold maxInterior
  exact scan_foldl_mem_le (fun i => point_to_line_distance (points.getD i (0, 0)) a b)
    _ (0, 0) i h

lemma maxInterior_idx_le (points : List Pt) (a b : Pt) :
    (maxInterior points a b).2 ≤ points.length - 2 := by
  unfold maxInterior
  rcases scan_foldl_eq_or_mem
      (fun i => point_to_line_distance (points.getD i (0, 0)) a b)
      (List.range' 1 (points.length - 2)) (0, 0) with h | h
  · rw [h]
    exact Nat.zero_le _
  · have := List.mem_range'_1.mp h
    omega

lemma maxInterior_pos_idx (points : List Pt) (a b : Pt)
    (h : 0 < (maxInterior points a b).1) :
    1 ≤ (maxInterior points a b).2 ∧ (maxInterior points a b).2 ≤ points.length - 2 := by
  unfold maxInterior at h ⊢
  rcases scan_foldl_eq_or_mem
      (fun i => point_to_line_distance (points.getD i (0, 0)) a b)
      (List.range' 1 (points.length - 2)) (0, 0) with heq | hmem
  · exfalso
    rw [heq] at h
    exact lt_irrefl 0 h
  · have := List.mem_range'_1.mp hmem
    omega

/-! ### Structural facts about `simplifyFuel` -/

lemma simplifyFuel_length_le :
    ∀ (fuel : ℕ) (points : List Pt) (epsilon : ℝ),
      (simplifyFuel fuel points epsilon).length ≤ points.length := by
  intro fuel
  induction fuel with
  | zero => intro points epsilon; exact le_rfl
  | succ f ih =>
    intro points epsilon
    simp only [simplifyFuel]
    by_cases h3 : points.length < 3
    · rw [if_pos h3]
    · rw [if_neg h3]
      by_cases hrec :
          epsilon < (maxInterior points points.headI (points.getLastD (0, 0))).1
      · rw [if_pos hrec]
        have hidx := maxInterior_idx_le points points.headI (points.getLastD (0, 0))
        have hl1 := ih (points.take
          ((maxInterior points points.headI (points.getLastD (0, 0))).2 + 1)) epsilon
        have hl2 := ih (points.drop
          (maxInterior points points.headI (points.getLastD (0, 0))).2) epsilon
        rw [List.length_append, List.length_dropLast]
        rw [List.length_take] at hl1
        rw [List.length_drop] at hl2
        omega
      · rw [if_neg hrec]
        simp only [List.length_cons, List.length_nil]
        omega

lemma simplifyFuel_two_le :
    ∀ (fuel : ℕ) (points : List Pt) (epsilon : ℝ), 2 ≤ points.length →
      2 ≤ (simplifyFuel fuel points epsilon).length := by
  intro fuel
  induction fuel with
  | zero => intro points epsilon h; exact h
  | succ f ih =>
    intro points epsilon h
    simp only [simplifyFuel]
    by_cases h3 : points.length < 3
    · rw [if_pos h3]; exact h
    · rw [if_neg h3]
      by_cases hrec :
          epsilon < (maxInterior points points.headI (points.getLastD (0, 0))).1
      · rw [if_pos hrec]
        have hidx := maxInterior_idx_le points points.headI (points.getLastD (0, 0))
        have hl2 := ih (points.drop
          (maxInterior points points.headI (points.getLastD (0, 0))).2) epsilon
          (by rw [List.length_drop]; omega)
        rw [List.length_append]
        omega
      · rw [if_neg hrec]
        simp

lemma head?_take {α : Type} (l : List α) (n : ℕ) (h : n ≠ 0) :
    (l.take n).head? = l.head? := by
  cases l with
  | nil => simp
  | cons a tl =>
    cases n with
    | zero => exact absurd rfl h
    | succ m => simp

lemma head?_dropLast {α : Type} (l : List α) (h : l.dropLast ≠ []) :
    l.dropLast.head? = l.head? := by
  rw [List.dropLast_eq_take] at h ⊢
  rw [head?_take]
  intro h0
  rw [h0] at h
  simp at h

lemma simplifyFuel_head? :
    ∀ (fuel : ℕ) (points : List Pt) (epsilon : ℝ),
      (simplifyFuel fuel points epsilon).head? = points.head? := by
  intro fuel
  induction fuel with
  | zero => intro points epsilon; rfl
  | succ f ih =>
    intro points epsilon
    simp only [simplifyFuel]
    by_cases h3 : points.length < 3
    · rw [if_pos h3]
    · rw [if_neg h3]
      have hne : points ≠ [] := by
        intro h
        rw [h] at h3
        simp at h3
      by_cases hrec :
          epsilon < (maxInterior points points.headI (points.getLastD (0, 0))).1
      · rw [if_pos hrec]
        set mi := (maxInterior points points.headI (points.getLastD (0, 0))).2 with hmi
        cases hd : (simplifyFuel f (points.take (mi + 1)) epsilon).dropLast with
        | nil =>
          rw [List.nil_append]
          have hmi0 : mi = 0 := by
            by_contra hne0
            have h2 : 2 ≤ (points.take (mi + 1)).length := by
              rw [List.length_take]
              omega
            have := simplifyFuel_two_le f (points.take (mi + 1)) epsilon h2
            have hlen := congrArg List.length hd
            rw [List.length_dropLast] at hlen
            simp at hlen
            omega
          rw [ih, hmi0, List.drop_zero]
        | cons x xs =>
          have hx : some x = points.head? := by
            have h1 : (simplifyFuel f (points.take (mi + 1)) epsilon).dropLast.head?
                = some x := by rw [hd]; rfl
            rw [head?_dropLast _ (by rw [hd]; exact List.cons_ne_nil x xs)] at h1
            rw [ih, head?_take _ _ (Nat.succ_ne_zero mi)] at h1
            exact h1.symm
          rw [List.cons_append, List.head?_cons]
          exact hx
      · rw [if_neg hrec]
        cases points with
        | nil => exact absurd (by simp) h3
        | cons p tl => simp [List.headI]

lemma simplifyFuel_getLast? :
    ∀ (fuel : ℕ) (points : List Pt) (epsilon : ℝ),
      (simplifyFuel fuel points epsilon).getLast? = points.getLast? := by
  intro fuel
  induction fuel with
  | zero => intro points epsilon; rfl
  | succ f ih =>
    intro points epsilon
    simp only [simplifyFuel]
    by_cases h3 : points.length < 3
    · rw [if_pos h3]
    · rw [if_neg h3]
      have hne : points ≠ [] := by
        intro h
        rw [h] at h3
        simp at h3
      by_cases hrec :
          epsilon < (maxInterior points points.headI (points.getLastD (0, 0))).1
      · rw [if_pos hrec]
        set mi := (maxInterior points points.headI (points.getLastD (0, 0))).2 with hmi
        have hidx := maxInterior_idx_le points points.headI (points.getLastD (0, 0))
        have hs2len : 2 ≤ (simplifyFuel f (points.drop mi) epsilon).length := by
          apply simplifyFuel_two_le
          rw [List.length_drop]
          omega
        have hs2ne : simplifyFuel f (points.drop mi) epsilon ≠ [] := by
          intro h
          rw [h] at hs2len
          simp at hs2len
        rw [List.getLast?_append_of_ne_nil _ hs2ne, ih]
        have hdropne : points.drop mi ≠ [] := by
          intro h
          have := congrArg List.length h
          rw [List.length_drop] at this
          simp at this
          omega
        conv_rhs => rw [← List.take_append_drop mi points]
        rw [List.getLast?_append_of_ne_nil _ hdropne]
      · rw [if_neg hrec]
        obtain ⟨y, hy⟩ : ∃ y, points.getLast? = some y :=
          ⟨points.getLast hne, List.getLast?_eq_getLast_of_ne_nil hne⟩
        rw [hy, List.getLastD_eq_getLast?, hy]
        rfl

/-! ### Adjacency transport -/

lemma adjacent_append_right (l₁ l₂ : List Pt) (a b : Pt) (h : Adjacent l₂ a b) :
    Adjacent (l₁ ++ l₂) a b := by
  obtain ⟨i, h1, h2⟩ := h
  refine ⟨l₁.length + i, ?_, ?_⟩
  · rw [List.get?_append_right (by omega)]
    simpa using h1
  · rw [List.get?_append_right (by omega)]
    have : l₁.length + i + 1 - l₁.length = i + 1 := by omega
    rw [this]
    exact h2

lemma adjacent_glue (l₁ l₂ : List Pt) (a b : Pt) (h : Adjacent l₁ a b)
    (hhead : l₂.head? = l₁.getLast?) : Adjacent (l₁.dropLast ++ l₂) a b := by
  obtain ⟨i, h1, h2⟩ := h
  obtain ⟨hlt, -⟩ := List.get?_eq_some.mp h2
  by_cases hcase : i + 1 < l₁.length - 1
  · refine ⟨i, ?_, ?_⟩
    · rw [List.get?_append (by rw [List.length_dropLast]; omega)]
      rw [List.dropLast_eq_take, List.get?_take (by omega)]
      exact h1
    · rw [List.get?_append (by rw [List.length_dropLast]; omega)]
      rw [List.dropLast_eq_take, List.get?_take (by omega)]
      exact h2
  · have hieq : i + 1 = l₁.length - 1 := by omega
    refine ⟨i, ?_, ?_⟩
    · rw [List.get?_append (by rw [List.length_dropLast]; omega)]
      rw [List.dropLast_eq_take, List.get?_take (by omega)]
      exact h1
    · rw [List.get?_append_right (by rw [List.length_dropLast]; omega)]
      have : i + 1 - l₁.dropLast.length = 0 := by rw [List.length_dropLast]; omega
      rw [this]
      have hz : l₂.get? 0 = l₂.head? := by cases l₂ <;> rfl
      rw [hz, hhead, List.getLast?_eq_get?]
      rw [← hieq]
      exact h2

/-! ### The covering property of `simplify` -/

/-- Every input point of a leaf call is within `max_dist` of the chord, or is
one of the two chord endpoints. -/
lemma simplifyFuel_cover :
    ∀ (fuel : ℕ) (points : List Pt) (epsilon : ℝ), 0 ≤ epsilon →
      2 ≤ points.length → points.length ≤ fuel →
      ∀ p ∈ points, ∃ a b, Adjacent (simplifyFuel fuel points epsilon) a b ∧
        segDist p a b ≤ epsilon := by
  intro fuel
  induction fuel with
  | zero =>
    intro points epsilon _ h2 hf
    omega
  | succ f ih =>
    intro points epsilon heps h2 hf p hp
    simp only [simplifyFuel]
    by_cases h3 : points.length < 3
    · rw [if_pos h3]
      have hlen2 : points.length = 2 := by omega
      obtain ⟨x, y, hxy⟩ := List.length_eq_two.mp hlen2
      subst hxy
      have hadj : Adjacent [x, y] x y := ⟨0, rfl, rfl⟩
      rcases List.mem_pair.mp hp with h | h
      · exact ⟨x, y, hadj, by rw [h, segDist_self_left]; exact heps⟩
      · exact ⟨x, y, hadj, by rw [h, segDist_self_right]; exact heps⟩
    · rw [if_neg h3]
      have hne : points ≠ [] := by
        intro h
        rw [h] at h3
        simp at h3
      by_cases hrec :
          epsilon < (maxInterior points points.headI (points.getLastD (0, 0))).1
      · rw [if_pos hrec]
        set mi := (maxInterior points points.headI (points.getLastD (0, 0))).2 with hmi
        have hpos : 0 < (maxInterior points points.headI (points.getLastD (0, 0))).1 :=
          lt_of_le_of_lt heps hrec
        obtain ⟨hmi1, hmi2⟩ :=
          maxInterior_pos_idx points points.headI (points.getLastD (0, 0)) hpos
        have htklen : (points.take (mi + 1)).length = mi + 1 := by
          rw [List.length_take]
          omega
        have hdplen : (points.drop mi).length = points.length - mi := by
          rw [List.length_drop]
        have hglue : (simplifyFuel f (points.drop mi) epsilon).head?
            = (simplifyFuel f (points.take (mi + 1)) epsilon).getLast? := by
          rw [simplifyFuel_head?, simplifyFuel_getLast?]
          rw [List.getLast?_eq_get?, htklen]
          have hz : ∀ (l : List Pt), l.get? 0 = l.head? := by
            intro l
            cases l <;> rfl
          rw [← hz, List.get?_drop, List.get?_take (by omega)]
          simp
        have hp' : p ∈ points.take (mi + 1) ++ points.drop (mi + 1) := by
          rw [List.take_append_drop]
          exact hp
        rcases List.mem_append.mp hp' with hmem | hmem
        · obtain ⟨a, b, hadj, hdist⟩ := ih (points.take (mi + 1)) epsilon heps
            (by omega) (by omega) p hmem
          exact ⟨a, b, adjacent_glue _ _ a b hadj hglue, hdist⟩
        · have hmem' : p ∈ points.drop mi := by
            have : points.drop (mi + 1) = (points.drop mi).drop 1 := by
              rw [List.drop_drop]
            rw [this] at hmem
            exact List.drop_subset 1 _ hmem
          obtain ⟨a, b, hadj, hdist⟩ := ih (points.drop mi) epsilon heps
            (by omega) (by omega) p hmem'
          exact ⟨a, b, adjacent_append_right _ _ a b hadj, hdist⟩
      · rw [if_neg hrec]
        have hadj : Adjacent [points.headI, points.getLastD (0, 0)]
            points.headI (points.getLastD (0, 0)) := ⟨0, rfl, rfl⟩
        obtain ⟨k, hk⟩ := List.mem_iff_get?.mp hp
        have hklt : k < points.length := (List.get?_eq_some.mp hk).1
        by_cases hk0 : k = 0
        · subst hk0
          have hpI : points.headI = p := by
            cases points with
            | nil => exact absurd rfl hne
            | cons q tl =>
              simp only [List.get?] at hk
              simpa [List.headI] using hk
          refine ⟨_, _, hadj, ?_⟩
          rw [hpI, segDist_self_left]
          exact heps
        · by_cases hklast : k = points.length - 1
          · have hplast : points.getLastD (0, 0) = p := by
              rw [List.getLastD_eq_getLast?, List.getLast?_eq_get?, ← hklast, hk]
              rfl
            refine ⟨_, _, hadj, ?_⟩
            rw [hplast, segDist_self_right]
            exact heps
          · have hkmem : k ∈ List.range' 1 (points.length - 2) :=
              List.mem_range'_1.mpr ⟨by omega, by omega⟩
            have hle := maxInterior_ge points points.headI (points.getLastD (0, 0)) hkmem
            have hgd : points.getD k (0, 0) = p := by
              rw [List.getD_eq_get?, hk]
              rfl
            rw [hgd] at hle
            exact ⟨_, _, hadj,
              le_trans (segDist_le_point_to_line_distance _ _ _)
                (le_trans hle (not_lt.mp hrec))⟩

/-- C5: `simplify` never increases the point count, and (for `epsilon ≥ 0`,
on any polyline with at least one segment) every input point is within
`epsilon` of some segment of the simplified polyline — hence within
`epsilon` of its nearest segment. -/
theorem simplify_spec (points : List Pt) (epsilon : ℝ) (heps : 0 ≤ epsilon) :
    (simplify points epsilon).length ≤ points.length ∧
    (2 ≤ points.length → ∀ p ∈ points, ∃ a b,
      Adjacent (simplify points epsilon) a b ∧ segDist p a b ≤ epsilon) := by
  constructor
  · exact simplifyFuel_length_le points.length points epsilon
  · intro h2 p hp
    exact simplifyFuel_cover points.length points epsilon heps h2 le_rfl p hp

/-- Witness for C5 on the concrete polyline `[(0,0), (2,1), (4,0)]` with
`epsilon = 3`. -/
theorem simplify_spec_witness :
    (0 : ℝ) ≤ 3 ∧
    (simplify [((0 : ℝ), (0 : ℝ)), (2, 1), (4, 0)] 3).length
        ≤ ([((0 : ℝ), (0 : ℝ)), (2, 1), (4, 0)] : List Pt).length ∧
    (∀ p ∈ ([((0 : ℝ), (0 : ℝ)), (2, 1), (4, 0)] : List Pt), ∃ a b,
      Adjacent (simplify [((0 : ℝ), (0 : ℝ)), (2, 1), (4, 0)] 3) a b ∧
        segDist p a b ≤ 3) :=
  ⟨by norm_num,
   (simplify_spec [((0 : ℝ), (0 : ℝ)), (2, 1), (4, 0)] 3 (by norm_num)).1,
   (simplify_spec [((0 : ℝ), (0 : ℝ)), (2, 1), (4, 0)] 3 (by norm_num)).2 (by simp)⟩

/-- Witness for C2 at `lat = 51.5074`, `lon = -0.1278`, origin `(48.0, 2.0)`. -/
theorem mercator_local_roundtrip_witness :
    |(51.5074 : ℝ)| ≤ 85.051128 ∧
    (mercator_to_wgs84 (wgs84_to_mercator 51.5074 (-0.1278)).1
        (wgs84_to_mercator 51.5074 (-0.1278)).2 = (51.5074, -0.1278) ∧
     (let c := set_origin defaultConverter 48.0 2.0
      local_to_wgs84 c (wgs84_to_local c 51.5074 (-0.1278)).1
        (wgs84_to_local c 51.5074 (-0.1278)).2 = (51.5074, -0.1278))) :=
  ⟨by rw [abs_le]; norm_num,
   mercator_local_roundtrip 51.5074 (-0.1278) 48.0 2.0 (by rw [abs_le]; norm_num)⟩

/-! ## OSM data types (`types.hpp`) -/

/-- Classification of road types (`RoadType`). -/
inductive RoadType
  | Motorway | Trunk | Primary | Secondary | Tertiary | Residential
  | Service | Footway | Cycleway | Path | Unknown
deriving DecidableEq

/-- Classification of building types (`BuildingType`). -/
inductive BuildingType
  | Residential | Commercial | Industrial | Retail | Office | Apartments
  | House | Detached | Garage | Shed | Church | School | Hospital
  | Warehouse | Unknown
deriving DecidableEq

/-- Classification of area types (`AreaType`). -/
inductive AreaType
  | Water | Park | Forest | Grass | Parking | Commercial | Residential
  | Industrial | Farmland | Cemetery | Unknown
deriving DecidableEq

/-- Roof style classification (`RoofType`). -/
inductive RoofType
  | Flat | Gabled | Hipped | Pyramidal | Skillion | Dome | Unknown
deriving DecidableEq

/-- Processed road (`struct Road`). -/
structure Road where
  osm_id : ℤ := 0
  polyline : List Pt := []
  type : RoadType := RoadType.Unknown
  width : ℝ := 6
  lanes : ℤ := 2
  speed_limit : Option ℝ := none
  name : String := ""
  is_oneway : Bool := false
  is_bridge : Bool := false
  is_tunnel : Bool := false

/-- Processed building (`struct Building`). -/
structure Building where
  osm_id : ℤ := 0
  footprint : List Pt := []
  holes : List (List Pt) := []
  height : ℝ := 10
  levels : ℤ := 3
  type : BuildingType := BuildingType.Unknown
  roof_type : RoofType := RoofType.Flat
  name : String := ""
  roof_color : Option String := none
  building_color : Option String := none

/-- Processed area (`struct Area`). -/
structure Area where
  osm_id : ℤ := 0
  polygon : List Pt := []
  holes : List (List Pt) := []
  type : AreaType := AreaType.Unknown
  name : String := ""

/-! ## Mesh data (`renderer/mesh.hpp`) -/

/-- A 3-D vector (`glm::vec3`), whose `float` components are modelled by `ℝ`. -/
abbrev V3 := ℝ × ℝ × ℝ

/-- An RGBA color (`glm::vec4`). -/
abbrev Color4 := ℝ × ℝ × ℝ × ℝ

/-- The value of `std::numeric_limits<float>::max()`. -/
def FLT_MAX : ℝ := 3.40282346638528859811704183484516925440e38

/-- `struct Vertex` (position, normal, uv, color, tangent). -/
structure Vertex where
  position : V3
  normal : V3
  uv : Pt
  color : Color4
  tangent : Color4 := (1, 0, 0, 1)

/-- `struct BoundingBox3D` with its sentinel initial values. -/
structure BoundingBox3D where
  min : V3 := (FLT_MAX, FLT_MAX, FLT_MAX)
  max : V3 := (-FLT_MAX, -FLT_MAX, -FLT_MAX)

/-- `BoundingBox3D::expand`. -/
def BoundingBox3D.expand (bb : BoundingBox3D) (p : V3) : BoundingBox3D :=
  { min := (Min.min bb.min.1 p.1, Min.min bb.min.2.1 p.2.1, Min.min bb.min.2.2 p.2.2),
    max := (Max.max bb.max.1 p.1, Max.max bb.max.2.1 p.2.1, Max.max bb.max.2.2 p.2.2) }

/-- `class Mesh`: vertex array, 32-bit index array, bounding box. -/
structure Mesh where
  vertices : List Vertex := []
  indices : List ℕ := []
  bounds : BoundingBox3D := {}

/-- `Mesh::is_valid()`: true iff the vertex array is non-empty. -/
def Mesh.is_valid (m : Mesh) : Bool := !m.vertices.isEmpty

/-- `Mesh::compute_bounds()`. -/
def Mesh.compute_bounds (m : Mesh) : Mesh :=
  { m with bounds := m.vertices.foldl (fun bb v => bb.expand v.position) {} }

@[simp] lemma compute_bounds_vertices (m : Mesh) :
    m.compute_bounds.vertices = m.vertices := rfl

@[simp] lemma compute_bounds_indices (m : Mesh) :
    m.compute_bounds.indices = m.indices := rfl

/-! ## MeshBuilder helpers (`mesh_builder.cpp`) -/

/-- `glm::normalize` on 2-D vectors.  For the zero vector the C++ version
divides by zero; the real model's `x / 0 = 0` yields the zero vector, which
makes the `length < 0.001` degenerate-miter check behave as intended. -/
def normalize2 (v : Pt) : Pt :=
  let len := Real.sqrt (v.1 ^ 2 + v.2 ^ 2)
  (v.1 / len, v.2 / len)

/-- `glm::length` of a 2-D vector. -/
def length2 (v : Pt) : ℝ := Real.sqrt (v.1 ^ 2 + v.2 ^ 2)

/-- `glm::cross` on 3-D vectors. -/
def cross3 (u v : V3) : V3 :=
  (u.2.1 * v.2.2 - u.2.2 * v.2.1,
   u.2.2 * v.1 - u.1 * v.2.2,
   u.1 * v.2.1 - u.2.1 * v.1)

/-- `glm::normalize` on 3-D vectors (`x / 0 = 0` in the real model). -/
def normalize3 (v : V3) : V3 :=
  let len := Real.sqrt (v.1 ^ 2 + v.2.1 ^ 2 + v.2.2 ^ 2)
  (v.1 / len, v.2.1 / len, v.2.2 / len)

/-- Negation of a 3-D vector. -/
def neg3 (v : V3) : V3 := (-v.1, -v.2.1, -v.2.2)

/-- The named-color table of `parse_color`. -/
def named_colors : List (String × Color4) :=
  [("red", (0.8, 0.2, 0.2, 1)), ("green", (0.2, 0.6, 0.2, 1)),
   ("blue", (0.2, 0.4, 0.8, 1)), ("yellow", (0.9, 0.85, 0.2, 1)),
   ("orange", (0.9, 0.5, 0.1, 1)), ("brown", (0.55, 0.35, 0.2, 1)),
   ("white", (0.95, 0.95, 0.95, 1)), ("black", (0.1, 0.1, 0.1, 1)),
   ("grey", (0.5, 0.5, 0.5, 1)), ("gray", (0.5, 0.5, 0.5, 1)),
   ("beige", (0.9, 0.85, 0.7, 1)), ("cream", (1, 0.95, 0.8, 1)),
   ("tan", (0.82, 0.7, 0.55, 1)), ("pink", (1, 0.7, 0.75, 1)),
   ("maroon", (0.5, 0.15, 0.15, 1)), ("terracotta", (0.8, 0.45, 0.3, 1)),
   ("sandstone", (0.85, 0.75, 0.6, 1)), ("brick", (0.7, 0.35, 0.25, 1)),
   ("slate", (0.4, 0.45, 0.5, 1)), ("copper", (0.5, 0.7, 0.6, 1)),
   ("silver", (0.75, 0.75, 0.8, 1)), ("gold", (0.85, 0.7, 0.3, 1))]

/-- A hexadecimal digit test (as used by `std::stoul` with base 16). -/
def isHexDig (c : Char) : Bool :=
  c.isDigit || ('a' ≤ c && c ≤ 'f') || ('A' ≤ c && c ≤ 'F')

/-- Value of a hexadecimal digit. -/
def hexDigVal (c : Char) : ℕ :=
  if c.isDigit then c.toNat - '0'.toNat
  else if 'a' ≤ c && c ≤ 'f' then c.toNat - 'a'.toNat + 10
  else c.toNat - 'A'.toNat + 10

/-- `std::stoul(s, nullptr, 16)` on a two-character substring: parses the
longest hexadecimal-digit prefix; `none` models the `std::invalid_argument`
exception (caught by `parse_color`'s `catch (...)`) when no digit leads. -/
def stoulHex (cs : List Char) : Option ℕ :=
  let ds := cs.takeWhile isHexDig
  if ds = [] then none
  else some (ds.foldl (fun acc c => acc * 16 + hexDigVal c) 0)

/-- `parse_color(color_str, fallback)` of `mesh_builder.cpp`: named-color
lookup on the lowercased string, then `#RGB`/`#RRGGBB` hex parsing on the
original string, with `fallback` on failure. -/
def parse_color (color_str : String) (fallback : Color4) : Color4 :=
  if color_str = "" then fallback
  else
    let lower := String.mk (color_str.toList.map Char.toLower)
    match named_colors.lookup lower with
    | some c => c
    | none =>
      let hex0 := color_str.toList
      let hex1 := if hex0.headI = '#' then hex0.tail else hex0
      let hex2 := match hex1 with
        | [a, b, c] => [a, a, b, b, c, c]
        | l => l
      if hex2.length = 6 then
        match stoulHex (hex2.take 2), stoulHex ((hex2.drop 2).take 2),
            stoulHex (hex2.drop 4) with
        | some r, some g, some b =>
          ((r : ℝ) / 255, (g : ℝ) / 255, (b : ℝ) / 255, 1)
        | _, _, _ => fallback
      else fallback

/-! ## Road meshes (`MeshBuilder::build_road_mesh`) -/

/-- The road tint table of `build_road_mesh`. -/
def road_color_of : RoadType → Color4
  | RoadType.Motorway | RoadType.Trunk => (0.2, 0.2, 0.25, 1)
  | RoadType.Primary => (0.25, 0.25, 0.28, 1)
  | RoadType.Secondary => (0.3, 0.3, 0.32, 1)
  | RoadType.Tertiary | RoadType.Residential => (0.35, 0.35, 0.38, 1)
  | RoadType.Service => (0.4, 0.4, 0.42, 1)
  | RoadType.Footway | RoadType.Path => (0.6, 0.55, 0.45, 1)
  | RoadType.Cycleway => (0.3, 0.5, 0.3, 1)
  | _ => (0.4, 0.4, 0.4, 1)

/-- The miter-averaged direction at polyline vertex `i` (the body of the
perpendicular pre-computation loop of `build_road_mesh`). -/
def roadDir (pl : List Pt) (i : ℕ) : Pt :=
  if i = 0 then normalize2 (pl.getD 1 (0, 0) - pl.getD 0 (0, 0))
  else if i = pl.length - 1 then normalize2 (pl.getD i (0, 0) - pl.getD (i - 1) (0, 0))
  else
    let dir_in := normalize2 (pl.getD i (0, 0) - pl.getD (i - 1) (0, 0))
    let dir_out := normalize2 (pl.getD (i + 1) (0, 0) - pl.getD i (0, 0))
    let dir := normalize2 (dir_in + dir_out)
    if length2 dir < 0.001 then dir_in else dir

/-- The per-vertex perpendicular of `build_road_mesh`. -/
def roadPerp (pl : List Pt) (i : ℕ) : Pt :=
  (-(roadDir pl i).2, (roadDir pl i).1)

/-- The four quad corners pushed for road segment `i`. -/
def roadSegmentVertices (road : Road) (i : ℕ) : List Vertex :=
  let p0 := road.polyline.getD i (0, 0)
  let p1 := road.polyline.getD (i + 1) (0, 0)
  let perp0 := roadPerp road.polyline i
  let perp1 := roadPerp road.polyline (i + 1)
  let half_width := road.width * 0.5
  let road_height : ℝ := 0.05
  let up : V3 := (0, 1, 0)
  let c := road_color_of road.type
  [{ position := (p0.1 - perp0.1 * half_width, road_height, -p0.2 - perp0.2 * half_width),
     normal := up, uv := (0, 0), color := c },
   { position := (p0.1 + perp0.1 * half_width, road_height, -p0.2 + perp0.2 * half_width),
     normal := up, uv := (1, 0), color := c },
   { position := (p1.1 + perp1.1 * half_width, road_height, -p1.2 + perp1.2 * half_width),
     normal := up, uv := (1, 1), color := c },
   { position := (p1.1 - perp1.1 * half_width, road_height, -p1.2 - perp1.2 * half_width),
     normal := up, uv := (0, 1), color := c }]

/-- `MeshBuilder::build_road_mesh`: one quad (4 vertices, 6 indices) per
polyline segment; the empty mesh for polylines with fewer than 2 points. -/
def build_road_mesh (road : Road) : Mesh :=
  if road.polyline.length < 2 then {}
  else
    Mesh.compute_bounds
      { vertices := (List.range (road.polyline.length - 1)).flatMap
          (roadSegmentVertices road),
        indices := (List.range (road.polyline.length - 1)).flatMap
          (fun i => [4 * i, 4 * i + 1, 4 * i + 2, 4 * i, 4 * i + 2, 4 * i + 3]) }

lemma length_flatMap_const {α β : Type} (l : List α) (f : α → List β) (k : ℕ)
    (h : ∀ a ∈ l, (f a).length = k) : (l.flatMap f).length = k * l.length := by
  induction l with
  | nil => simp
  | cons x xs ih =>
    rw [List.flatMap_cons, List.length_append, h x (List.mem_cons_self x xs),
      ih (fun a ha => h a (List.mem_cons_of_mem x ha))]
    simp [List.length_cons]
    ring

/-- C7: for every road whose polyline has `n ≥ 2` points, `build_road_mesh`
emits exactly one quad per segment: `4(n-1)` vertices and `6(n-1)` indices. -/
theorem build_road_mesh_counts (road : Road) (h : 2 ≤ road.polyline.length) :
    (build_road_mesh road).vertices.length = 4 * (road.polyline.length - 1) ∧
    (build_road_mesh road).indices.length = 6 * (road.polyline.length - 1) := by
  unfold build_road_mesh
  rw [if_neg (by omega)]
  constructor
  · rw [compute_bounds_vertices]
    rw [length_flatMap_const (List.range (road.polyline.length - 1))
      (roadSegmentVertices road) 4 (fun a _ => rfl)]
    rw [List.length_range]
  · rw [compute_bounds_indices]
    rw [length_flatMap_const (List.range (road.polyline.length - 1))
      (fun i => [4 * i, 4 * i + 1, 4 * i + 2, 4 * i, 4 * i + 2, 4 * i + 3]) 6
      (fun a _ => rfl)]
    rw [List.length_range]

/-- Witness for C7: a 3-point road polyline with `width = 6` produces exactly
8 vertices and 12 indices. -/
theorem build_road_mesh_counts_witness :
    2 ≤ ([((0 : ℝ), (0 : ℝ)), (10, 0), (20, 5)] : List Pt).length ∧
    (build_road_mesh
      { polyline := [((0 : ℝ), (0 : ℝ)), (10, 0), (20, 5)], width := 6 }).vertices.length
        = 8 ∧
    (build_road_mesh
      { polyline := [((0 : ℝ), (0 : ℝ)), (10, 0), (20, 5)], width := 6 }).indices.length
        = 12 := by
  refine ⟨by simp, ?_, ?_⟩
  · have := (build_road_mesh_counts
      { polyline := [((0 : ℝ), (0 : ℝ)), (10, 0), (20, 5)], width := 6 } (by simp)).1
    simpa using this
  · have := (build_road_mesh_counts
      { polyline := [((0 : ℝ), (0 : ℝ)), (10, 0), (20, 5)], width := 6 } (by simp)).2
    simpa using this

/-! ## Building meshes (`MeshBuilder::build_building_mesh`) -/

/-- The default (wall, roof) color pair by building type. -/
def building_default_colors : BuildingType → Color4 × Color4
  | BuildingType.Commercial | BuildingType.Office =>
    ((0.6, 0.7, 0.8, 1), (0.3, 0.35, 0.4, 1))
  | BuildingType.Industrial | BuildingType.Warehouse =>
    ((0.5, 0.5, 0.5, 1), (0.35, 0.35, 0.35, 1))
  | BuildingType.Residential | BuildingType.House | BuildingType.Detached =>
    ((0.85, 0.75, 0.65, 1), (0.55, 0.35, 0.25, 1))
  | BuildingType.Apartments => ((0.8, 0.75, 0.7, 1), (0.4, 0.4, 0.45, 1))
  | BuildingType.Church => ((0.9, 0.88, 0.85, 1), (0.3, 0.3, 0.35, 1))
  | BuildingType.School | BuildingType.Hospital =>
    ((0.85, 0.8, 0.75, 1), (0.5, 0.3, 0.25, 1))
  | BuildingType.Retail => ((0.75, 0.7, 0.65, 1), (0.4, 0.4, 0.4, 1))
  | BuildingType.Garage | BuildingType.Shed =>
    ((0.6, 0.55, 0.5, 1), (0.45, 0.4, 0.35, 1))
  | _ => ((0.7, 0.7, 0.7, 1), (0.4, 0.4, 0.45, 1))

/-- The resolved wall color of a building. -/
def building_wall_color (b : Building) : Color4 :=
  match b.building_color with
  | some s => parse_color s (building_default_colors b.type).1
  | none => (building_default_colors b.type).1

/-- The resolved roof color of a building. -/
def building_roof_color (b : Building) : Color4 :=
  match b.roof_color with
  | some s => parse_color s (building_default_colors b.type).2
  | none => (building_default_colors b.type).2

/-- The duplicate-closing-point test of the wall/roof loops:
`i == n - 1 && footprint[0] == footprint[n-1]`. -/
def skipClosing (fp : List Pt) (i : ℕ) : Prop :=
  i = fp.length - 1 ∧ fp.getD 0 (0, 0) = fp.getD (fp.length - 1) (0, 0)

/-- The wall quad pushed for footprint edge `i`. -/
def buildingWallQuad (b : Building) (i : ℕ) : List Vertex :=
  let n := b.footprint.length
  let pi2 := b.footprint.getD i (0, 0)
  let pn2 := b.footprint.getD ((i + 1) % n) (0, 0)
  let p0 : V3 := (pi2.1, 0, -pi2.2)
  let p1 : V3 := (pn2.1, 0, -pn2.2)
  let p2 : V3 := (pn2.1, b.height, -pn2.2)
  let p3 : V3 := (pi2.1, b.height, -pi2.2)
  let normal := normalize3 (cross3 (0, 1, 0) (p1.1 - p0.1, p1.2.1 - p0.2.1, p1.2.2 - p0.2.2))
  let c := building_wall_color b
  [{ position := p0, normal := normal, uv := (0, 0), color := c },
   { position := p1, normal := normal, uv := (1, 0), color := c },
   { position := p2, normal := normal, uv := (1, 1), color := c },
   { position := p3, normal := normal, uv := (0, 1), color := c }]

/-- The wall vertices of `build_building_mesh`: one quad per footprint edge,
except the closing edge of an explicitly closed ring. -/
def buildingWallVertices (b : Building) : List Vertex :=
  (List.range b.footprint.length).flatMap
    (fun i => if skipClosing b.footprint i then [] else buildingWallQuad b i)

/-- The wall indices of `build_building_mesh` (quad `i` starts at vertex
`4 i`; the skip can only hit the last edge, so earlier bases are unshifted). -/
def buildingWallIndices (b : Building) : List ℕ :=
  (List.range b.footprint.length).flatMap
    (fun i => if skipClosing b.footprint i then []
      else [4 * i, 4 * i + 1, 4 * i + 2, 4 * i, 4 * i + 2, 4 * i + 3])

/-- `compute_centroid` (static helper of `mesh_builder.cpp`): arithmetic mean
of the polygon points. -/
def compute_centroid (polygon : List Pt) : Pt :=
  let s := polygon.foldl (· + ·) ((0 : ℝ), (0 : ℝ))
  (s.1 / polygon.length, s.2 / polygon.length)

/-- The value of `std::numeric_limits<double>::max()`. -/
def DBL_MAX : ℝ := 1.7976931348623157e308

/-- The longest-edge direction scan of `compute_principal_axis`. -/
def longestEdgeDir (polygon : List Pt) : Pt :=
  ((List.range polygon.length).foldl
    (fun acc i =>
      let edge := polygon.getD ((i + 1) % polygon.length) (0, 0) - polygon.getD i (0, 0)
      if acc.1 < length2 edge then (length2 edge, normalize2 edge) else acc)
    (0, (1, 0))).2

/-- `compute_principal_axis`: ridge axis, centroid, and the extents along the
axis and its perpendicular. -/
def principal_axis (polygon : List Pt) : Pt × Pt × ℝ × ℝ :=
  let axis := longestEdgeDir polygon
  let center := compute_centroid polygon
  let perp : Pt := (-axis.2, axis.1)
  let ext := polygon.foldl
    (fun (acc : ℝ × ℝ × ℝ × ℝ) pt =>
      let rel := pt - center
      let along := rel.1 * axis.1 + rel.2 * axis.2
      let across := rel.1 * perp.1 + rel.2 * perp.2
      (Min.min acc.1 along, Max.max acc.2.1 along,
       Min.min acc.2.2.1 across, Max.max acc.2.2.2 across))
    (DBL_MAX, -DBL_MAX, DBL_MAX, -DBL_MAX)
  (axis, center, ext.2.1 - ext.1, ext.2.2.2 - ext.2.2.1)

/-- The gabled-roof quad pushed for footprint edge `i` (4 vertices:
`p0, p1, ridge_end, ridge_start` with an upward-flipped face normal). -/
def gabledRoofQuad (b : Building) (i : ℕ) : List Vertex :=
  let n := b.footprint.length
  let pa := principal_axis b.footprint
  let axis := pa.1
  let center := pa.2.1
  let len := pa.2.2.1
  let wid := pa.2.2.2
  let ridge_height := wid * 0.5 * 0.3
  let perp : Pt := (-axis.2, axis.1)
  let rs2 := center - (axis.1 * (len * 0.5), axis.2 * (len * 0.5))
  let re2 := center + (axis.1 * (len * 0.5), axis.2 * (len * 0.5))
  let ridge_start : V3 := (rs2.1, b.height + ridge_height, -rs2.2)
  let ridge_end : V3 := (re2.1, b.height + ridge_height, -re2.2)
  let pi2 := b.footprint.getD i (0, 0)
  let pn2 := b.footprint.getD ((i + 1) % n) (0, 0)
  let p0 : V3 := (pi2.1, b.height, -pi2.2)
  let p1 : V3 := (pn2.1, b.height, -pn2.2)
  let edge_mid := ((pi2.1 + pn2.1) * 0.5, (pi2.2 + pn2.2) * 0.5)
  let side := (edge_mid.1 - center.1) * perp.1 + (edge_mid.2 - center.2) * perp.2
  let to_ridge : V3 := if side > 0 then
      (ridge_start.1 - p0.1, ridge_start.2.1 - p0.2.1, ridge_start.2.2 - p0.2.2)
    else (ridge_end.1 - p0.1, ridge_end.2.1 - p0.2.1, ridge_end.2.2 - p0.2.2)
  let fn0 := normalize3 (cross3 (p1.1 - p0.1, p1.2.1 - p0.2.1, p1.2.2 - p0.2.2) to_ridge)
  let fn := if fn0.2.1 < 0 then neg3 fn0 else fn0
  let c := building_roof_color b
  [{ position := p0, normal := fn, uv := (0, 0), color := c },
   { position := p1, normal := fn, uv := (1, 0), color := c },
   { position := ridge_end, normal := fn, uv := (1, 1), color := c },
   { position := ridge_start, normal := fn, uv := (0, 1), color := c }]

/-- The apex of a hipped/pyramidal roof: above the centroid, at height
`height + min-distance-to-an-edge × 0.3`. -/
def hippedApex (b : Building) : V3 :=
  let n := b.footprint.length
  let center := compute_centroid b.footprint
  let min_dist := (List.range n).foldl
    (fun acc i =>
      if skipClosing b.footprint i then acc
      else
        let pi2 := b.footprint.getD i (0, 0)
        let pn2 := b.footprint.getD ((i + 1) % n) (0, 0)
        let edge := pn2 - pi2
        let to_center := center - pi2
        if 0.001 < length2 edge then
          let t := clampR ((to_center.1 * edge.1 + to_center.2 * edge.2)
            / (length2 edge * length2 edge)) 0 1
          Min.min acc (length2 (center - (pi2 + (edge.1 * t, edge.2 * t))))
        else acc)
    DBL_MAX
  (center.1, b.height + min_dist * 0.3, -center.2)

/-- The hipped/pyramidal roof triangle pushed for footprint edge `i`. -/
def hippedRoofTri (b : Building) (i : ℕ) : List Vertex :=
  let n := b.footprint.length
  let apex := hippedApex b
  let pi2 := b.footprint.getD i (0, 0)
  let pn2 := b.footprint.getD ((i + 1) % n) (0, 0)
  let p0 : V3 := (pi2.1, b.height, -pi2.2)
  let p1 : V3 := (pn2.1, b.height, -pn2.2)
  let fn0 := normalize3 (cross3 (p1.1 - p0.1, p1.2.1 - p0.2.1, p1.2.2 - p0.2.2)
    (apex.1 - p0.1, apex.2.1 - p0.2.1, apex.2.2 - p0.2.2))
  let fn := if fn0.2.1 < 0 then neg3 fn0 else fn0
  let c := building_roof_color b
  [{ position := p0, normal := fn, uv := (0, 0), color := c },
   { position := p1, normal := fn, uv := (1, 0), color := c },
   { position := apex, normal := fn, uv := (0.5, 1), color := c }]

/-- The roof vertices of `build_building_mesh`, dispatching on the roof
type.  The flat-roof branch pushes every ring point regardless of what the
external triangulator returns, so it needs no `tri` parameter. -/
def buildingRoofVertices (b : Building) : List Vertex :=
  if b.roof_type = RoofType.Gabled ∧ b.holes = [] then
    (List.range b.footprint.length).flatMap
      (fun i => if skipClosing b.footprint i then [] else gabledRoofQuad b i)
  else if (b.roof_type = RoofType.Hipped ∨ b.roof_type = RoofType.Pyramidal)
      ∧ b.holes = [] then
    (List.range b.footprint.length).flatMap
      (fun i => if skipClosing b.footprint i then [] else hippedRoofTri b i)
  else
    (b.footprint :: b.holes).flatten.map
      (fun pt => { position := (pt.1, b.height, -pt.2), normal := (0, 1, 0),
                   uv := (0, 0), color := building_roof_color b })

/-- The roof indices of `build_building_mesh`, offset by the wall vertex
count `base`. -/
def buildingRoofIndices (tri : List (List Pt) → List ℕ) (b : Building)
    (base : ℕ) : List ℕ :=
  if b.roof_type = RoofType.Gabled ∧ b.holes = [] then
    (List.range b.footprint.length).flatMap
      (fun i => if skipClosing b.footprint i then []
        else [base + 4 * i, base + 4 * i + 1, base + 4 * i + 2,
              base + 4 * i, base + 4 * i + 2, base + 4 * i + 3])
  else if (b.roof_type = RoofType.Hipped ∨ b.roof_type = RoofType.Pyramidal)
      ∧ b.holes = [] then
    (List.range b.footprint.length).flatMap
      (fun i => if skipClosing b.footprint i then []
        else [base + 3 * i, base + 3 * i + 1, base + 3 * i + 2])
  else
    (tri (b.footprint :: b.holes)).map (base + ·)

/-- `MeshBuilder::build_building_mesh`: wall quads for every footprint edge
(skipping a duplicated closing edge), then the roof by roof type; the empty
mesh for footprints with fewer than 3 points. -/
def build_building_mesh (tri : List (List Pt) → List ℕ) (b : Building) : Mesh :=
  if b.footprint.length < 3 then {}
  else
    Mesh.compute_bounds
      { vertices := buildingWallVertices b ++ buildingRoofVertices b,
        indices := buildingWallIndices b
          ++ buildingRoofIndices tri b (buildingWallVertices b).length }

/-! ## Area meshes (`MeshBuilder::build_area_mesh`) -/

/-- The (color, height-offset) table of `build_area_mesh`. -/
def area_color_height : AreaType → Color4 × ℝ
  | AreaType.Water => ((0.25, 0.45, 0.65, 1), 0.01)
  | AreaType.Park => ((0.35, 0.55, 0.35, 1), 0.02)
  | AreaType.Forest => ((0.25, 0.4, 0.25, 1), 0.02)
  | AreaType.Grass => ((0.45, 0.58, 0.4, 1), 0.02)
  | AreaType.Parking => ((0.42, 0.42, 0.44, 1), 0.03)
  | AreaType.Commercial => ((0.55, 0.5, 0.6, 1), 0.02)
  | AreaType.Residential => ((0.52, 0.52, 0.48, 1), 0.02)
  | AreaType.Industrial => ((0.5, 0.48, 0.42, 1), 0.02)
  | AreaType.Farmland => ((0.6, 0.55, 0.4, 1), 0.02)
  | AreaType.Cemetery => ((0.4, 0.48, 0.42, 1), 0.02)
  | _ => ((0.48, 0.48, 0.48, 1), 0.02)

/-- `MeshBuilder::build_area_mesh`: ear-clipping triangulation of the polygon
plus holes; the empty mesh when the polygon has fewer than 3 points or the
triangulator returns an empty index list. -/
def build_area_mesh (tri : List (List Pt) → List ℕ) (a : Area) : Mesh :=
  if a.polygon.length < 3 then {}
  else
    let idx := tri (a.polygon :: a.holes)
    if idx = [] then {}
    else
      Mesh.compute_bounds
        { vertices := (a.polygon :: a.holes).flatten.map
            (fun pt => { position := (pt.1, (area_color_height a.type).2, -pt.2),
                         normal := (0, 1, 0), uv := (0, 0),
                         color := (area_color_height a.type).1 }),
          indices := idx }

/-- C4: every degenerate input — a building footprint with fewer than 3
points, a road polyline with fewer than 2 points, an area polygon with fewer
than 3 points, or a zero-area polygon (which the external triangulator
answers with an empty index list) — yields the empty `Mesh`, with zero
vertices and `is_valid() == false`.  The Lean model is total, mirroring that
the C++ never throws on these inputs.  -/
theorem mesh_builder_degenerate (tri : List (List Pt) → List ℕ) :
    (∀ b : Building, b.footprint.length < 3 →
      build_building_mesh tri b = {} ∧ (build_building_mesh tri b).is_valid = false) ∧
    (∀ r : Road, r.polyline.length < 2 →
      build_road_mesh r = {} ∧ (build_road_mesh r).is_valid = false) ∧
    (∀ a : Area, a.polygon.length < 3 →
      build_area_mesh tri a = {} ∧ (build_area_mesh tri a).is_valid = false) ∧
    (∀ a : Area, 3 ≤ a.polygon.length → polygon_area a.polygon = 0 →
      tri (a.polygon :: a.holes) = [] →
      build_area_mesh tri a = {} ∧ (build_area_mesh tri a).is_valid = false) := by
  refine ⟨fun b hb => ?_, fun r hr => ?_, fun a ha => ?_, fun a ha3 _ htri => ?_⟩
  · unfold build_building_mesh
    rw [if_pos hb]
    exact ⟨rfl, rfl⟩
  · unfold build_road_mesh
    rw [if_pos hr]
    exact ⟨rfl, rfl⟩
  · unfold build_area_mesh
    rw [if_pos ha]
    exact ⟨rfl, rfl⟩
  · unfold build_area_mesh
    rw [if_neg (by omega)]
    simp only [htri, if_pos rfl]
    exact ⟨rfl, rfl⟩

/-- Witness for C4: a 2-point footprint, a 1-point polyline, a 2-point area
polygon, and a zero-area collinear 3-point area polygon, with a triangulator
that rejects degenerate rings. -/
theorem mesh_builder_degenerate_witness :
    (([((0 : ℝ), (0 : ℝ)), (1, 0)] : List Pt).length < 3 ∧
      build_building_mesh (fun _ => []) { footprint := [((0 : ℝ), (0 : ℝ)), (1, 0)] } = {}) ∧
    (([((0 : ℝ), (0 : ℝ))] : List Pt).length < 2 ∧
      build_road_mesh { polyline := [((0 : ℝ), (0 : ℝ))] } = {}) ∧
    (([((0 : ℝ), (0 : ℝ)), (1, 1)] : List Pt).length < 3 ∧
      build_area_mesh (fun _ => []) { polygon := [((0 : ℝ), (0 : ℝ)), (1, 1)] } = {}) ∧
    (polygon_area [((0 : ℝ), (0 : ℝ)), (1, 0), (2, 0)] = 0 ∧
      build_area_mesh (fun _ => []) { polygon := [((0 : ℝ), (0 : ℝ)), (1, 0), (2, 0)] } = {}) := by
  refine ⟨⟨by simp, ((mesh_builder_degenerate (fun _ => [])).1 _ (by simp)).1⟩,
          ⟨by simp, ((mesh_builder_degenerate (fun _ => [])).2.1 _ (by simp)).1⟩,
          ⟨by simp, ((mesh_builder_degenerate (fun _ => [])).2.2.1 _ (by simp)).1⟩,
          ⟨?_, ((mesh_builder_degenerate (fun _ => [])).2.2.2 _ (by simp) ?_ rfl).1⟩⟩
  all_goals
    simp only [polygon_area]
    norm_num [List.range_succ]

/-! ### C10: explicitly closed footprint rings -/

lemma length_flatMap_skipClosing {α : Type} (fp : List Pt) (g : ℕ → List α) (k : ℕ)
    (hg : ∀ i, (g i).length = k) (h1 : 1 ≤ fp.length) :
    ((List.range fp.length).flatMap
      (fun i => if skipClosing fp i then [] else g i)).length =
    if fp.getD 0 (0, 0) = fp.getD (fp.length - 1) (0, 0) then k * (fp.length - 1)
    else k * fp.length := by
  by_cases hc : fp.getD 0 (0, 0) = fp.getD (fp.length - 1) (0, 0)
  · rw [if_pos hc]
    obtain ⟨m, hm⟩ : ∃ m, fp.length = m + 1 := ⟨fp.length - 1, by omega⟩
    rw [hm, List.range_succ, List.flatMap_append]
    rw [List.length_append]
    have h2 : ((List.range m).flatMap
        (fun i => if skipClosing fp i then [] else g i)).length
        = k * m := by
      rw [length_flatMap_const _ _ k]
      · rw [List.length_range]
      · intro i hi
        have hilt := List.mem_range.mp hi
        rw [if_neg]
        · exact hg i
        · intro hskip
          obtain ⟨heq, -⟩ := hskip
          omega
    rw [h2]
    have h3 : (List.flatMap [m]
        (fun i => if skipClosing fp i then [] else g i)).length = 0 := by
      simp only [List.flatMap_cons, List.flatMap_nil, List.append_nil]
      rw [if_pos ⟨by omega, hc⟩]
      rfl
    rw [h3]
    rw [Nat.add_sub_cancel]
    omega
  · rw [if_neg hc]
    rw [length_flatMap_const _ _ k]
    · rw [List.length_range]
    · intro i _
      rw [if_neg]
      · exact hg i
      · intro hskip
        exact hc hskip.2

/-- C10: with `n ≥ 3` footprint points, an explicitly closed ring
(`footprint[0] == footprint[n-1]`) yields `n-1` wall quads — `4(n-1)` wall
vertices — while an open ring yields `n` quads; the same closing-point skip
governs the gabled and hipped/pyramidal roof faces (4 vertices per gabled
quad, 3 per hipped triangle).  The mesh's vertex list is exactly the wall
vertices followed by the roof vertices. -/
theorem building_closed_ring_counts (b : Building) (h3 : 3 ≤ b.footprint.length) :
    (∀ tri, (build_building_mesh tri b).vertices
      = buildingWallVertices b ++ buildingRoofVertices b) ∧
    ((buildingWallVertices b).length =
      if b.footprint.getD 0 (0, 0) = b.footprint.getD (b.footprint.length - 1) (0, 0)
      then 4 * (b.footprint.length - 1) else 4 * b.footprint.length) ∧
    (b.roof_type = RoofType.Gabled → b.holes = [] →
      (buildingRoofVertices b).length =
      if b.footprint.getD 0 (0, 0) = b.footprint.getD (b.footprint.length - 1) (0, 0)
      then 4 * (b.footprint.length - 1) else 4 * b.footprint.length) ∧
    ((b.roof_type = RoofType.Hipped ∨ b.roof_type = RoofType.Pyramidal) → b.holes = [] →
      (buildingRoofVertices b).length =
      if b.footprint.getD 0 (0, 0) = b.footprint.getD (b.footprint.length - 1) (0, 0)
      then 3 * (b.footprint.length - 1) else 3 * b.footprint.length) := by
  refine ⟨fun tri => ?_, ?_, fun hg hh => ?_, fun hg hh => ?_⟩
  · unfold build_building_mesh
    rw [if_neg (by omega)]
    rfl
  · exact length_flatMap_skipClosing b.footprint (buildingWallQuad b) 4
      (fun i => rfl) (by omega)
  · unfold buildingRoofVertices
    rw [if_pos ⟨hg, hh⟩]
    exact length_flatMap_skipClosing b.footprint (gabledRoofQuad b) 4
      (fun i => rfl) (by omega)
  · unfold buildingRoofVertices
    rw [if_neg, if_pos ⟨hg, hh⟩]
    · exact length_flatMap_skipClosing b.footprint (hippedRoofTri b) 3
        (fun i => rfl) (by omega)
    · intro hcon
      rcases hg with hg | hg <;> rw [hg] at hcon <;> exact absurd hcon.1 (by simp)

/-- Witness for C10: a closed 4-point triangle ring with a gabled roof gives
12 wall vertices and 12 roof vertices. -/
theorem building_closed_ring_counts_witness :
    3 ≤ ([((0 : ℝ), (0 : ℝ)), (4, 0), (2, 3), (0, 0)] : List Pt).length ∧
    (buildingWallVertices
      { footprint := [((0 : ℝ), (0 : ℝ)), (4, 0), (2, 3), (0, 0)], roof_type := RoofType.Gabled }).length = 12 ∧
    (buildingRoofVertices
      { footprint := [((0 : ℝ), (0 : ℝ)), (4, 0), (2, 3), (0, 0)], roof_type := RoofType.Gabled }).length = 12 := by
  have h := building_closed_ring_counts
    { footprint := [((0 : ℝ), (0 : ℝ)), (4, 0), (2, 3), (0, 0)], roof_type := RoofType.Gabled }
    (by simp)
  refine ⟨by simp, ?_, ?_⟩
  · have h2 := h.2.1
    rw [if_pos (by norm_num)] at h2
    simpa using h2
  · have h4 := h.2.2.1 rfl rfl
    rw [if_pos (by norm_num)] at h4
    simpa using h4

/-! ## Junction meshes (`MeshBuilder::build_junction_meshes`) -/

/-- The constants of `build_junction_meshes`. -/
def JUNCTION_THRESHOLD : ℝ := 2

/-- Spatial-hash cell size: twice the junction threshold. -/
def CELL_SIZE : ℝ := JUNCTION_THRESHOLD * 2

/-- `struct RoadEndpoint`. -/
structure RoadEndpoint where
  position : Pt
  width : ℝ
  road_idx : ℕ

/-- The placeholder endpoint used for out-of-range `getD` reads (never hit
on the index ranges the algorithm uses). -/
def epdef : RoadEndpoint := ⟨(0, 0), 0, 0⟩

/-- The endpoint collection loop: start and end point of every road whose
polyline has at least 2 points, in road order. -/
def junctionEndpoints (roads : List Road) : List RoadEndpoint :=
  (List.range roads.length).flatMap (fun ri =>
    let road := roads.getD ri {}
    if road.polyline.length < 2 then []
    else [⟨road.polyline.headI, road.width, ri⟩,
          ⟨road.polyline.getLastD (0, 0), road.width, ri⟩])

/-- `hash_cell`: floor-divide both coordinates by the cell size.  The C++
packs the two `int` cell coordinates into one `int64` key
(`cx << 32 | uint32(cy)`), which is injective whenever `cy` fits in 32 bits;
the model uses the pair itself as the key. -/
def hash_cell (p : Pt) : ℤ × ℤ := (⌊p.1 / CELL_SIZE⌋, ⌊p.2 / CELL_SIZE⌋)

/-- The spatial hash: the bucket of `cell` holds the endpoint indices whose
position hashes to `cell`, in increasing index order (the insertion order of
the build loop). -/
def spatialHash (eps : List RoadEndpoint) (cell : ℤ × ℤ) : List ℕ :=
  (List.range eps.length).filter
    (fun i => decide (hash_cell (eps.getD i epdef).position = cell))

/-- Squared distance between two endpoint positions
(`diff.x * diff.x + diff.y * diff.y`). -/
def distSq (p q : Pt) : ℝ := (q.1 - p.1) * (q.1 - p.1) + (q.2 - p.2) * (q.2 - p.2)

/-- The 3×3 neighbor-cell scan around endpoint `i` (outer `dx`, inner `dy`),
concatenating the scanned buckets. -/
def neighborCandidates (eps : List RoadEndpoint) (i : ℕ) : List ℕ :=
  ([-1, 0, 1] : List ℤ).flatMap (fun dx =>
    ([-1, 0, 1] : List ℤ).flatMap (fun dy =>
      spatialHash eps ((hash_cell (eps.getD i epdef).position).1 + dx,
                       (hash_cell (eps.getD i epdef).position).2 + dy)))

/-- The cluster grown around unprocessed endpoint `i`: `i` itself plus every
later unprocessed endpoint within the threshold found in the neighbor cells.
Each endpoint index occurs in exactly one bucket and each of the nine
scanned cells is distinct, so a single filter over the concatenated buckets
matches the C++ loop with its in-place `processed` marking. -/
def junctionCluster (eps : List RoadEndpoint) (i : ℕ) (processed : ℕ → Bool) :
    List ℕ :=
  i :: (neighborCandidates eps i).filter (fun j =>
    decide (i < j) && !processed j &&
    decide (distSq (eps.getD i epdef).position (eps.getD j epdef).position
      < JUNCTION_THRESHOLD * JUNCTION_THRESHOLD))

/-- The filled circular fan emitted for a cluster: 1 center vertex, 12 rim
vertices, and a 12-triangle fan, centered at the cluster average with radius
`0.6 ×` the largest contributing road width. -/
def mkJunctionMesh (eps : List RoadEndpoint) (cluster : List ℕ) : Mesh :=
  let csum := cluster.foldl (fun acc idx => acc + (eps.getD idx epdef).position)
    ((0 : ℝ), (0 : ℝ))
  let center : Pt := (csum.1 / cluster.length, csum.2 / cluster.length)
  let max_width := cluster.foldl (fun acc idx => Max.max acc (eps.getD idx epdef).width)
    (0 : ℝ)
  let radius := max_width * 0.6
  let up : V3 := (0, 1, 0)
  let jc : Color4 := (0.3, 0.3, 0.32, 1)
  Mesh.compute_bounds
    { vertices := { position := (center.1, 0.06, -center.2), normal := up,
                    uv := (0.5, 0.5), color := jc }
        :: (List.range 12).map (fun s =>
            let angle := (s : ℝ) / 12 * 2 * 3.14159265
            { position := (center.1 + radius * Real.cos angle, 0.06,
                           -center.2 + radius * Real.sin angle),
              normal := up,
              uv := (0.5 + 0.5 * Real.cos angle, 0.5 + 0.5 * Real.sin angle),
              color := jc }),
      indices := (List.range 12).flatMap
        (fun s => [0, 1 + s, 1 + (s + 1) % 12]) }

/-- The clustering loop of `build_junction_meshes` over endpoint indices:
skip processed seeds, mark every cluster member processed, and emit a fan
for clusters of size at least 2. -/
def junctionGo (eps : List RoadEndpoint) : List ℕ → (ℕ → Bool) → List Mesh
  | [], _ => []
  | i :: rest, processed =>
    if processed i then junctionGo eps rest processed
    else
      let cluster := junctionCluster eps i processed
      let processed' := fun j => processed j || decide (j ∈ cluster)
      if cluster.length < 2 then junctionGo eps rest processed'
      else mkJunctionMesh eps cluster :: junctionGo eps rest processed'

/-- `MeshBuilder::build_junction_meshes`. -/
def build_junction_meshes (roads : List Road) : List Mesh :=
  if roads.isEmpty then []
  else junctionGo (junctionEndpoints roads)
    (List.range (junctionEndpoints roads).length) (fun _ => false)

/-! ### Facts about the junction clustering -/

lemma abs_floor_sub_le_one {a b : ℝ} (h : |a - b| < 1) :
    ⌊b⌋ = ⌊a⌋ - 1 ∨ ⌊b⌋ = ⌊a⌋ ∨ ⌊b⌋ = ⌊a⌋ + 1 := by
  obtain ⟨h1, h2⟩ := abs_lt.mp h
  have hfa1 := Int.floor_le a
  have hfa2 := Int.lt_floor_add_one a
  have hub : ⌊b⌋ < ⌊a⌋ + 2 := by
    rw [Int.floor_lt]
    push_cast
    linarith
  have hlb : ⌊a⌋ - 1 ≤ ⌊b⌋ := by
    rw [Int.le_floor]
    push_cast
    linarith
  omega

/-- Hash completeness: an endpoint within the junction threshold of endpoint
`i` lies in one of the nine scanned cells, so the scan finds it. -/
lemma mem_neighborCandidates {eps : List RoadEndpoint} {i j : ℕ}
    (hj : j < eps.length)
    (hd : distSq (eps.getD i epdef).position (eps.getD j epdef).position
      < JUNCTION_THRESHOLD * JUNCTION_THRESHOLD) :
    j ∈ neighborCandidates eps i := by
  set pi2 := (eps.getD i epdef).position with hpi
  set pj2 := (eps.getD j epdef).position with hpj
  have hthr : JUNCTION_THRESHOLD * JUNCTION_THRESHOLD = 4 := by
    norm_num [JUNCTION_THRESHOLD]
  rw [hthr] at hd
  have hdx : |pi2.1 / CELL_SIZE - pj2.1 / CELL_SIZE| < 1 := by
    have h1 : (pj2.1 - pi2.1) * (pj2.1 - pi2.1) < 4 := by
      have := mul_self_nonneg (pj2.2 - pi2.2)
      unfold distSq at hd
      nlinarith
    have h2 : |pj2.1 - pi2.1| < 2 := by
      rw [abs_lt]
      constructor <;> nlinarith
    rw [abs_lt] at h2 ⊢
    unfold CELL_SIZE JUNCTION_THRESHOLD
    constructor <;> [nlinarith; nlinarith]
  have hdy : |pi2.2 / CELL_SIZE - pj2.2 / CELL_SIZE| < 1 := by
    have h1 : (pj2.2 - pi2.2) * (pj2.2 - pi2.2) < 4 := by
      have := mul_self_nonneg (pj2.1 - pi2.1)
      unfold distSq at hd
      nlinarith
    have h2 : |pj2.2 - pi2.2| < 2 := by
      rw [abs_lt]
      constructor <;> nlinarith
    rw [abs_lt] at h2 ⊢
    unfold CELL_SIZE JUNCTION_THRESHOLD
    constructor <;> [nlinarith; nlinarith]
  have hx := abs_floor_sub_le_one hdx
  have hy := abs_floor_sub_le_one hdy
  have hjmem : j ∈ spatialHash eps (hash_cell pj2) := by
    unfold spatialHash
    rw [List.mem_filter]
    exact ⟨List.mem_range.mpr hj, by simp [hpj]⟩
  unfold neighborCandidates
  rw [List.mem_flatMap]
  refine ⟨⌊pj2.1 / CELL_SIZE⌋ - ⌊pi2.1 / CELL_SIZE⌋, ?_, ?_⟩
  · rcases hx with h | h | h <;> rw [h] <;> simp
  · rw [List.mem_flatMap]
    refine ⟨⌊pj2.2 / CELL_SIZE⌋ - ⌊pi2.2 / CELL_SIZE⌋, ?_, ?_⟩
    · rcases hy with h | h | h <;> rw [h] <;> simp
    · have hcell : ((hash_cell pi2).1 + (⌊pj2.1 / CELL_SIZE⌋ - ⌊pi2.1 / CELL_SIZE⌋),
          (hash_cell pi2).2 + (⌊pj2.2 / CELL_SIZE⌋ - ⌊pi2.2 / CELL_SIZE⌋))
          = hash_cell pj2 := by
        unfold hash_cell
        rw [Prod.mk.injEq]
        constructor <;> omega
      rw [hcell]
      exact hjmem

/-- Soundness: every scanned candidate is a valid endpoint index. -/
lemma neighborCandidates_lt {eps : List RoadEndpoint} {i j : ℕ}
    (h : j ∈ neighborCandidates eps i) : j < eps.length := by
  unfold neighborCandidates at h
  rw [List.mem_flatMap] at h
  obtain ⟨dx, -, h⟩ := h
  rw [List.mem_flatMap] at h
  obtain ⟨dy, -, h⟩ := h
  unfold spatialHash at h
  rw [List.mem_filter] at h
  exact List.mem_range.mp h.1

/-- Cluster membership characterisation. -/
lemma mem_junctionCluster {eps : List RoadEndpoint} {i j : ℕ}
    {processed : ℕ → Bool} (hj : j < eps.length) :
    j ∈ junctionCluster eps i processed ↔
    (j = i ∨ (i < j ∧ processed j = false ∧
      distSq (eps.getD i epdef).position (eps.getD j epdef).position
        < JUNCTION_THRESHOLD * JUNCTION_THRESHOLD)) := by
  unfold junctionCluster
  rw [List.mem_cons, List.mem_filter]
  constructor
  · rintro (h | ⟨hmem, hcond⟩)
    · exact Or.inl h
    · simp only [Bool.and_eq_true, decide_eq_true_eq, Bool.not_eq_true'] at hcond
      exact Or.inr ⟨hcond.1.1, hcond.1.2, hcond.2⟩
  · rintro (h | ⟨hij, hproc, hdist⟩)
    · exact Or.inl h
    · refine Or.inr ⟨mem_neighborCandidates hj hdist, ?_⟩
      simp only [Bool.and_eq_true, decide_eq_true_eq, Bool.not_eq_true']
      exact ⟨⟨hij, hproc⟩, hdist⟩

/-- A seed with no later unprocessed in-threshold partner yields the
singleton cluster. -/
lemma junctionCluster_singleton {eps : List RoadEndpoint} {i : ℕ}
    {processed : ℕ → Bool}
    (h : ∀ j, j < eps.length → i < j → processed j = false →
      ¬ distSq (eps.getD i epdef).position (eps.getD j epdef).position
        < JUNCTION_THRESHOLD * JUNCTION_THRESHOLD) :
    junctionCluster eps i processed = [i] := by
  unfold junctionCluster
  rw [List.cons_eq_cons]
  refine ⟨rfl, ?_⟩
  rw [List.filter_eq_nil]
  intro j hjmem
  have hjlt := neighborCandidates_lt hjmem
  simp only [Bool.and_eq_true, decide_eq_true_eq, Bool.not_eq_true', not_and]
  intro hcond
  exact h j hjlt hcond.1 hcond.2

/-- A seed with a later unprocessed in-threshold partner yields a cluster of
size at least 2. -/
lemma junctionCluster_two_le {eps : List RoadEndpoint} {i j : ℕ}
    {processed : ℕ → Bool} (hj : j < eps.length) (hij : i < j)
    (hproc : processed j = false)
    (hd : distSq (eps.getD i epdef).position (eps.getD j epdef).position
      < JUNCTION_THRESHOLD * JUNCTION_THRESHOLD) :
    2 ≤ (junctionCluster eps i processed).length := by
  have hmem : j ∈ junctionCluster eps i processed :=
    (mem_junctionCluster hj).mpr (Or.inr ⟨hij, hproc, hd⟩)
  unfold junctionCluster at hmem ⊢
  rw [List.mem_cons] at hmem
  rcases hmem with h | h
  · omega
  · have := List.length_pos.mpr (List.ne_nil_of_mem h)
    simp only [List.length_cons]
    omega

lemma junctionGo_cons_skip (eps : List RoadEndpoint) (i : ℕ) (rest : List ℕ)
    (P : ℕ → Bool) (h : P i = true) :
    junctionGo eps (i :: rest) P = junctionGo eps rest P := by
  conv_lhs => unfold junctionGo
  rw [if_pos h]

lemma junctionGo_cons_singleton (eps : List RoadEndpoint) (i : ℕ) (rest : List ℕ)
    (P : ℕ → Bool) (hPi : P i = false)
    (h : ∀ j, j < eps.length → i < j → P j = false →
      ¬ distSq (eps.getD i epdef).position (eps.getD j epdef).position
        < JUNCTION_THRESHOLD * JUNCTION_THRESHOLD) :
    junctionGo eps (i :: rest) P
      = junctionGo eps rest (fun j => P j || decide (j ∈ ([i] : List ℕ))) := by
  conv_lhs => unfold junctionGo
  rw [if_neg (by rw [hPi]; exact Bool.false_ne_true)]
  have hc := junctionCluster_singleton h
  simp only [hc]
  rw [if_pos (by norm_num)]

lemma junctionGo_cons_emit (eps : List RoadEndpoint) (i : ℕ) (rest : List ℕ)
    (P : ℕ → Bool) (hPi : P i = false)
    (h2 : 2 ≤ (junctionCluster eps i P).length) :
    junctionGo eps (i :: rest) P
      = mkJunctionMesh eps (junctionCluster eps i P)
        :: junctionGo eps rest
          (fun j => P j || decide (j ∈ junctionCluster eps i P)) := by
  conv_lhs => unfold junctionGo
  rw [if_neg (by rw [hPi]; exact Bool.false_ne_true)]
  rw [if_neg (by omega)]

/-- After the only junction has been emitted, every remaining seed is either
already processed or has no in-threshold later partner, so the rest of the
loop emits nothing. -/
lemma junctionGo_rest_nil (eps : List RoadEndpoint) :
    ∀ (l : List ℕ) (P : ℕ → Bool),
      (∀ i ∈ l, P i = true ∨ (∀ j, j < eps.length → i < j → P j = false →
        ¬ distSq (eps.getD i epdef).position (eps.getD j epdef).position
          < JUNCTION_THRESHOLD * JUNCTION_THRESHOLD)) →
      junctionGo eps l P = [] := by
  intro l
  induction l with
  | nil => intro P _; rfl
  | cons i rest ih =>
    intro P h
    rcases h i (List.mem_cons_self i rest) with hPi | hfar
    · rw [junctionGo_cons_skip eps i rest P hPi]
      exact ih P (fun j hj => h j (List.mem_cons_of_mem i hj))
    · by_cases hPi : P i = true
      · rw [junctionGo_cons_skip eps i rest P hPi]
        exact ih P (fun j hj => h j (List.mem_cons_of_mem i hj))
      · rw [junctionGo_cons_singleton eps i rest P (by simpa using hPi) hfar]
        apply ih
        intro i' hi'
        rcases h i' (List.mem_cons_of_mem i hi') with hP | hfar'
        · exact Or.inl (by rw [hP]; rfl)
        · refine Or.inr (fun j hj hij hPj => ?_)
          simp only [Bool.or_eq_false_iff] at hPj
          exact hfar' j hj hij hPj.1

/-- When exactly one in-threshold pair `(p, q)` exists, the loop — visiting
seeds in increasing order with `p` still to come and both `p`, `q`
unprocessed — emits exactly one junction mesh. -/
lemma junctionGo_one_length (eps : List RoadEndpoint) (p q : ℕ)
    (hqlen : q < eps.length) (hpq : p < q)
    (hclose : distSq (eps.getD p epdef).position (eps.getD q epdef).position
      < JUNCTION_THRESHOLD * JUNCTION_THRESHOLD)
    (hfar : ∀ j k, j < k → k < eps.length → ¬ (j = p ∧ k = q) →
      ¬ distSq (eps.getD j epdef).position (eps.getD k epdef).position
        < JUNCTION_THRESHOLD * JUNCTION_THRESHOLD) :
    ∀ (l : List ℕ) (P : ℕ → Bool), List.Sorted (· < ·) l → p ∈ l →
      P p = false → P q = false →
      (junctionGo eps l P).length = 1 := by
  intro l
  induction l with
  | nil => intro P _ hp; simp at hp
  | cons i rest ih =>
    intro P hsort hpmem hPp hPq
    rcases List.mem_cons.mp hpmem with hip | hpm
    · subst hip
      have hc2 := junctionCluster_two_le hqlen hpq hPq hclose
      rw [junctionGo_cons_emit eps p rest P hPp hc2]
      rw [List.length_cons]
      have hqc : q ∈ junctionCluster eps p P :=
        (mem_junctionCluster hqlen).mpr (Or.inr ⟨hpq, hPq, hclose⟩)
      rw [junctionGo_rest_nil eps rest _ ?_]
      · rfl
      · intro i' hi'
        have hpi' : p < i' := (List.sorted_cons.mp hsort).1 i' hi'
        by_cases hiq : i' = q
        · subst hiq
          refine Or.inl ?_
          simp only [Bool.or_eq_true, decide_eq_true_eq]
          exact Or.inr hqc
        · refine Or.inr (fun j hj hij _ => ?_)
          refine hfar i' j hij hj ?_
          rintro ⟨h1, -⟩
          omega
    · have hip : i < p := (List.sorted_cons.mp hsort).1 p hpm
      by_cases hPi : P i = true
      · rw [junctionGo_cons_skip eps i rest P hPi]
        exact ih P (List.sorted_cons.mp hsort).2 hpm hPp hPq
      · have hPif : P i = false := by simpa using hPi
        have hfari : ∀ j, j < eps.length → i < j → P j = false →
            ¬ distSq (eps.getD i epdef).position (eps.getD j epdef).position
              < JUNCTION_THRESHOLD * JUNCTION_THRESHOLD := by
          intro j hj hij _
          refine hfar i j hij hj ?_
          rintro ⟨h1, -⟩
          omega
        rw [junctionGo_cons_singleton eps i rest P hPif hfari]
        refine ih _ (List.sorted_cons.mp hsort).2 hpm ?_ ?_
        · simp only [Bool.or_eq_false_iff]
          refine ⟨hPp, ?_⟩
          simp only [List.mem_singleton, decide_eq_false_iff_not]
          omega
        · simp only [Bool.or_eq_false_iff]
          refine ⟨hPq, ?_⟩
          simp only [List.mem_singleton, decide_eq_false_iff_not]
          omega

/-- The endpoint list of two roads with at least two polyline points each. -/
lemma junctionEndpoints_two (r0 r1 : Road) (h0 : 2 ≤ r0.polyline.length)
    (h1 : 2 ≤ r1.polyline.length) :
    junctionEndpoints [r0, r1]
      = [⟨r0.polyline.headI, r0.width, 0⟩,
         ⟨r0.polyline.getLastD (0, 0), r0.width, 0⟩,
         ⟨r1.polyline.headI, r1.width, 1⟩,
         ⟨r1.polyline.getLastD (0, 0), r1.width, 1⟩] := by
  unfold junctionEndpoints
  have hr : List.range ([r0, r1] : List Road).length = [0, 1] := rfl
  rw [hr]
  simp only [List.flatMap_cons, List.flatMap_nil, List.append_nil]
  have e0 : (([r0, r1] : List Road).getD 0 {}) = r0 := rfl
  have e1 : (([r0, r1] : List Road).getD 1 {}) = r1 := rfl
  rw [e0, e1, if_neg (by omega), if_neg (by omega)]
  rfl

/-- C8: for two roads (each with a polyline of at least 2 points) whose four
endpoints contain exactly one pair within the 2 m junction threshold,
`build_junction_meshes` returns exactly one junction mesh; when no pair is
within the threshold it returns none — clusters with a single endpoint never
produce a mesh. -/
theorem junction_clustering_threshold (r0 r1 : Road)
    (h0 : 2 ≤ r0.polyline.length) (h1 : 2 ≤ r1.polyline.length) :
    (∀ p q : ℕ, p < q → q < 4 →
      distSq ((junctionEndpoints [r0, r1]).getD p epdef).position
          ((junctionEndpoints [r0, r1]).getD q epdef).position
        < JUNCTION_THRESHOLD * JUNCTION_THRESHOLD →
      (∀ j k : ℕ, j < k → k < 4 → ¬ (j = p ∧ k = q) →
        ¬ distSq ((junctionEndpoints [r0, r1]).getD j epdef).position
            ((junctionEndpoints [r0, r1]).getD k epdef).position
          < JUNCTION_THRESHOLD * JUNCTION_THRESHOLD) →
      (build_junction_meshes [r0, r1]).length = 1) ∧
    ((∀ j k : ℕ, j < k → k < 4 →
        ¬ distSq ((junctionEndpoints [r0, r1]).getD j epdef).position
            ((junctionEndpoints [r0, r1]).getD k epdef).position
          < JUNCTION_THRESHOLD * JUNCTION_THRESHOLD) →
      build_junction_meshes [r0, r1] = []) := by
  have hlen : (junctionEndpoints [r0, r1]).length = 4 := by
    rw [junctionEndpoints_two r0 r1 h0 h1]
    rfl
  have hbm : build_junction_meshes [r0, r1]
      = junctionGo (junctionEndpoints [r0, r1]) [0, 1, 2, 3] (fun _ => false) := by
    unfold build_junction_meshes
    rw [if_neg (by simp)]
    rw [hlen]
    rfl
  constructor
  · intro p q hpq hq4 hclose hfar
    rw [hbm]
    refine junctionGo_one_length (junctionEndpoints [r0, r1]) p q
      (by omega) hpq hclose ?_ [0, 1, 2, 3] (fun _ => false) (by decide) ?_ rfl rfl
    · intro j k hjk hk hne
      exact hfar j k hjk (by omega) hne
    · simp only [List.mem_cons, List.not_mem_nil, or_false]
      omega
  · intro hfar
    rw [hbm]
    apply junctionGo_rest_nil
    intro i hi
    have hi4 : i < 4 := by
      simp only [List.mem_cons, List.not_mem_nil, or_false] at hi
      omega
    refine Or.inr (fun j hj hij _ => ?_)
    rw [hlen] at hj
    exact hfar i j hij hj

/-- Witness for C8: with road endpoints `(10, 0)` and `(11.5, 0)` — 1.5 m
apart — exactly one junction mesh; with `(10, 0)` and `(15, 0)` — 5 m apart —
none. -/
theorem junction_clustering_threshold_witness :
    (build_junction_meshes
      [{ polyline := [((0 : ℝ), (0 : ℝ)), (10, 0)], width := 6 },
       { polyline := [((11.5 : ℝ), (0 : ℝ)), (20, 0)], width := 6 }]).length = 1 ∧
    build_junction_meshes
      [{ polyline := [((0 : ℝ), (0 : ℝ)), (10, 0)], width := 6 },
       { polyline := [((15 : ℝ), (0 : ℝ)), (20, 0)], width := 6 }] = [] := by
  constructor
  · refine (junction_clustering_threshold
      { polyline := [((0 : ℝ), (0 : ℝ)), (10, 0)], width := 6 }
      { polyline := [((11.5 : ℝ), (0 : ℝ)), (20, 0)], width := 6 }
      (by simp) (by simp)).1 1 2 (by norm_num) (by norm_num) ?_ ?_
    · rw [junctionEndpoints_two _ _ (by simp) (by simp)]
      norm_num [distSq, JUNCTION_THRESHOLD, List.getD_cons_zero, List.getD_cons_succ,
        List.headI, List.getLastD]
    · intro j k hjk hk4 hne
      rw [junctionEndpoints_two _ _ (by simp) (by simp)]
      interval_cases k <;> interval_cases j <;>
        (first
          | (exfalso; apply hne; refine ⟨?_, ?_⟩ <;> rfl)
          | norm_num [distSq, JUNCTION_THRESHOLD, List.getD_cons_zero,
              List.getD_cons_succ, List.headI, List.getLastD])
  · refine (junction_clustering_threshold
      { polyline := [((0 : ℝ), (0 : ℝ)), (10, 0)], width := 6 }
      { polyline := [((15 : ℝ), (0 : ℝ)), (20, 0)], width := 6 }
      (by simp) (by simp)).2 ?_
    intro j k hjk hk4
    rw [junctionEndpoints_two _ _ (by simp) (by simp)]
    interval_cases k <;> interval_cases j <;>
      norm_num [distSq, JUNCTION_THRESHOLD, List.getD_cons_zero,
        List.getD_cons_succ, List.headI, List.getLastD]

/-! ## TileManager (`tile_manager.hpp` / `tile_manager.cpp`) -/

/-- `struct TileCoord`: integer grid key `(x, y, zoom)`. -/
structure TileCoord where
  x : ℤ := 0
  y : ℤ := 0
  zoom : ℤ := 0
deriving DecidableEq

/-- Geographic `struct BoundingBox` of `types.hpp` with its sentinel
defaults. -/
structure BoundingBox where
  min_lat : ℝ := 90
  max_lat : ℝ := -90
  min_lon : ℝ := 180
  max_lon : ℝ := -180

/-- `struct Tile`. -/
structure Tile where
  coord : TileCoord := {}
  bounds : BoundingBox := {}
  roads : List Road := []
  buildings : List Building := []
  areas : List Area := []
  road_meshes : List Mesh := []
  building_meshes : List Mesh := []
  area_meshes : List Mesh := []
  road_gpu_ids : List ℕ := []
  building_gpu_ids : List ℕ := []
  area_gpu_ids : List ℕ := []
  gpu_uploaded : Bool := false
  bounds_min : V3 := (0, 0, 0)
  bounds_max : V3 := (0, 0, 0)
  is_loaded : Bool := false
  meshes_built : Bool := false
  meshes_pending : Bool := false

/-- `struct BuiltMeshes` (the result a worker task produces). -/
structure BuiltMeshes where
  road_meshes : List Mesh := []
  building_meshes : List Mesh := []
  area_meshes : List Mesh := []

/-- `struct PendingBuild`: the queued coordinate together with the value the
future resolves to.  The worker deterministically computes
`build_tile_meshes_internal` on the captured tile copy, so the future is
modelled by that value; *when* it becomes ready is outside the model and
appears as the `ready` parameter of `poll_async_builds`. -/
structure PendingBuild where
  coord : TileCoord
  result : BuiltMeshes

/-- The `TileManager` state: the tile map (`std::unordered_map` modelled as a
partial function), the pending-build list and the grid parameters. -/
structure TileManager where
  tiles : TileCoord → Option Tile := fun _ => none
  pending_builds : List PendingBuild := []
  origin : Pt := (0, 0)
  tile_size : ℝ := 500
  grid_width : ℤ := 0
  grid_height : ℤ := 0

/-- `std::clamp` on `int`. -/
def clampZ (v lo hi : ℤ) : ℤ := if v < lo then lo else if hi < v then hi else v

/-- `TileManager::local_to_tile`: floor-divide by the tile size, then clamp
into the grid. -/
def local_to_tile (tm : TileManager) (lp : Pt) : TileCoord :=
  { x := clampZ ⌊(lp.1 - tm.origin.1) / tm.tile_size⌋ 0 (tm.grid_width - 1),
    y := clampZ ⌊(lp.2 - tm.origin.2) / tm.tile_size⌋ 0 (tm.grid_height - 1),
    zoom := 0 }

/-- The `set_tile_bounds` helper of `assign_data`: 3-D bounds from the grid
cell, with the fixed height range `[0, 200]` and local `y` mapped to `-z`. -/
def set_tile_bounds (tm : TileManager) (tile : Tile) (coord : TileCoord) : Tile :=
  let min_x := tm.origin.1 + coord.x * tm.tile_size
  let min_y := tm.origin.2 + coord.y * tm.tile_size
  let max_x := min_x + tm.tile_size
  let max_y := min_y + tm.tile_size
  { tile with bounds_min := (min_x, 0, -max_y), bounds_max := (max_x, 200, -min_y) }

/-- The `get_or_create_tile` helper of `assign_data`: `m_tiles[coord]`
default-constructs a missing tile; the coord, loaded flag and bounds are
(re)assigned either way. -/
def getOrCreateTile (tm : TileManager) (tiles : TileCoord → Option Tile)
    (coord : TileCoord) : Tile :=
  set_tile_bounds tm
    { (tiles coord).getD {} with coord := coord, is_loaded := true } coord

/-- The per-entity inner loop of `assign_data`: walk the entity's points,
and at each not-yet-seen tile coordinate append the entity (via `add`) to
that (possibly new) tile.  `seen` models the `std::set<TileCoord>`
deduplicator. -/
def assignPoints (tm : TileManager) (add : Tile → Tile) :
    List Pt → List TileCoord → (TileCoord → Option Tile) → (TileCoord → Option Tile)
  | [], _, tiles => tiles
  | pt :: rest, seen, tiles =>
    let c := local_to_tile tm pt
    if c ∈ seen then assignPoints tm add rest seen tiles
    else assignPoints tm add rest (c :: seen)
      (fun c' => if c' = c then some (add (getOrCreateTile tm tiles c)) else tiles c')

/-- One of the three entity loops of `assign_data`, generic in the geometry
selector and the per-tile append. -/
def assignEntities {β : Type} (tm : TileManager) (geom : β → List Pt)
    (upd : β → Tile → Tile) (es : List β) (tiles : TileCoord → Option Tile) :
    TileCoord → Option Tile :=
  es.foldl (fun tiles e =>
    if (geom e).isEmpty then tiles
    else assignPoints tm (upd e) (geom e) [] tiles) tiles

/-- `ParsedOSMData`, restricted to the fields `assign_data` reads: the three
processed entity lists.  (The raw node/way/relation maps, bounds and
coordinate-system fields of the C++ struct are not consulted by the tiling
code.) -/
structure ParsedOSMData where
  roads : List Road := []
  buildings : List Building := []
  areas : List Area := []

/-- `TileManager::assign_data`: roads, then buildings, then areas, each
appended to every tile one of its vertices falls in (deduplicated per
entity). -/
def assign_data (tm : TileManager) (data : ParsedOSMData) : TileManager :=
  { tm with tiles :=
      (assignEntities tm Area.polygon (fun a t => { t with areas := t.areas ++ [a] })
        data.areas
        (assignEntities tm Building.footprint
          (fun b t => { t with buildings := t.buildings ++ [b] })
          data.buildings
          (assignEntities tm Road.polyline
            (fun r t => { t with roads := t.roads ++ [r] })
            data.roads tm.tiles))) }

/-- `TileManager::build_tile_meshes_internal`: pure mesh generation on a
tile snapshot — road ribbons, junction fans appended to the road meshes,
building and area meshes, each filtered by validity. -/
def build_tile_meshes_internal (tri : List (List Pt) → List ℕ) (tile : Tile) :
    BuiltMeshes :=
  { road_meshes := (tile.roads.map build_road_mesh).filter Mesh.is_valid
      ++ (if tile.roads.isEmpty then []
          else (build_junction_meshes tile.roads).filter Mesh.is_valid),
    building_meshes := (tile.buildings.map (build_building_mesh tri)).filter Mesh.is_valid,
    area_meshes := (tile.areas.map (build_area_mesh tri)).filter Mesh.is_valid }

/-- `TileManager::queue_tile_build_async`: `false` when the tile is missing,
already built or already pending; otherwise mark it pending, snapshot it,
and append a pending build whose future computes
`build_tile_meshes_internal` on the snapshot. -/
def queue_tile_build_async (tri : List (List Pt) → List ℕ) (tm : TileManager)
    (coord : TileCoord) : TileManager × Bool :=
  match tm.tiles coord with
  | none => (tm, false)
  | some tile =>
    if tile.meshes_built || tile.meshes_pending then (tm, false)
    else
      let tile' := { tile with meshes_pending := true }
      ({ tm with
          tiles := fun c => if c = coord then some tile' else tm.tiles c,
          pending_builds := tm.pending_builds
            ++ [{ coord := coord, result := build_tile_meshes_internal tri tile' }] },
       true)

/-- The per-entry application step of `poll_async_builds`: write the built
meshes and flip both flags, when the tile still exists. -/
def applyBuild (tiles : TileCoord → Option Tile) (e : PendingBuild) :
    TileCoord → Option Tile :=
  match tiles e.coord with
  | none => tiles
  | some tile => fun c =>
      if c = e.coord then
        some { tile with
          road_meshes := e.result.road_meshes,
          building_meshes := e.result.building_meshes,
          area_meshes := e.result.area_meshes,
          meshes_built := true,
          meshes_pending := false }
      else tiles c

/-- The erase-as-you-scan loop of `poll_async_builds` over the pending list:
returns the updated tile map, the still-pending entries, and the completed
count. -/
def pollList (ready : PendingBuild → Bool) :
    List PendingBuild → (TileCoord → Option Tile) →
    (TileCoord → Option Tile) × List PendingBuild × ℕ
  | [], tiles => (tiles, [], 0)
  | e :: rest, tiles =>
    if ready e then
      let r := pollList ready rest (applyBuild tiles e)
      (r.1, r.2.1, r.2.2 + 1)
    else
      let r := pollList ready rest tiles
      (r.1, e :: r.2.1, r.2.2)

/-- `TileManager::poll_async_builds`.  `ready e = true` models
`future.wait_for(0ms) == ready` for that entry at this poll. -/
def poll_async_builds (ready : PendingBuild → Bool) (tm : TileManager) :
    TileManager × ℕ :=
  let r := pollList ready tm.pending_builds tm.tiles
  ({ tm with tiles := r.1, pending_builds := r.2.1 }, r.2.2)

/-! ### C1: queueing is guarded and idempotent until polled -/

/-- Unfolding of `queue_tile_build_async` when the tile exists. -/
lemma queue_tile_build_async_some (tri : List (List Pt) → List ℕ)
    (tm : TileManager) (coord : TileCoord) (t : Tile)
    (ht : tm.tiles coord = some t) :
    queue_tile_build_async tri tm coord
      = if (t.meshes_built || t.meshes_pending) = true then (tm, false)
        else ({ tm with
            tiles := fun c => if c = coord then some { t with meshes_pending := true }
              else tm.tiles c,
            pending_builds := tm.pending_builds
              ++ [{ coord := coord,
                    result := build_tile_meshes_internal tri
                      { t with meshes_pending := true } }] }, true) := by
  unfold queue_tile_build_async
  rw [ht]

/-- C1: `queue_tile_build_async` returns `false` when the tile is missing,
already built, or already pending; otherwise it sets `meshes_pending` and
returns `true` — so, on an existing unbuilt tile, calling it twice with no
intervening poll returns `true` then `false`. -/
theorem queue_tile_build_async_spec (tri : List (List Pt) → List ℕ)
    (tm : TileManager) (coord : TileCoord) :
    (tm.tiles coord = none → (queue_tile_build_async tri tm coord).2 = false) ∧
    (∀ t, tm.tiles coord = some t → (t.meshes_built = true ∨ t.meshes_pending = true) →
      (queue_tile_build_async tri tm coord).2 = false) ∧
    (∀ t, tm.tiles coord = some t → t.meshes_built = false → t.meshes_pending = false →
      (queue_tile_build_async tri tm coord).2 = true ∧
      (∃ t', (queue_tile_build_async tri tm coord).1.tiles coord = some t' ∧
        t'.meshes_pending = true) ∧
      (queue_tile_build_async tri (queue_tile_build_async tri tm coord).1 coord).2
        = false) := by
  refine ⟨fun h => ?_, fun t ht hflag => ?_, fun t ht hb hp => ?_⟩
  · unfold queue_tile_build_async
    rw [h]
  · rw [queue_tile_build_async_some tri tm coord t ht,
      if_pos (by rcases hflag with h | h <;> simp [h])]
  · have hq := queue_tile_build_async_some tri tm coord t ht
    rw [if_neg (by rw [hb, hp]; simp)] at hq
    refine ⟨by rw [hq], ⟨{ t with meshes_pending := true }, by rw [hq]; simp, rfl⟩, ?_⟩
    rw [hq]
    have ht2 : (queue_tile_build_async tri tm coord).1.tiles coord
        = some { t with meshes_pending := true } := by
      rw [hq]
      simp
    rw [hq] at ht2
    rw [queue_tile_build_async_some tri _ coord { t with meshes_pending := true } ht2]
    rw [if_pos (by simp)]

/-- Witness for C1 on a one-tile manager with a fresh tile at `(0,0,0)`. -/
theorem queue_tile_build_async_spec_witness :
    ({ tiles := fun c => if c = ({} : TileCoord) then some ({} : Tile) else none } :
      TileManager).tiles {} = some ({} : Tile) ∧
    (queue_tile_build_async (fun _ => [])
      { tiles := fun c => if c = ({} : TileCoord) then some ({} : Tile) else none }
      {}).2 = true ∧
    (queue_tile_build_async (fun _ => [])
      (queue_tile_build_async (fun _ => [])
        { tiles := fun c => if c = ({} : TileCoord) then some ({} : Tile) else none }
        {}).1 {}).2 = false := by
  have h := (queue_tile_build_async_spec (fun _ => [])
    { tiles := fun c => if c = ({} : TileCoord) then some ({} : Tile) else none }
    {}).2.2 {} (by simp) rfl rfl
  exact ⟨by simp, h.1, h.2.2⟩

/-! ### C9: polling a build whose tile vanished -/

lemma pollList_all_missing (ready : PendingBuild → Bool) :
    ∀ (l : List PendingBuild) (tiles : TileCoord → Option Tile),
      (∀ e ∈ l, ready e = true → tiles e.coord = none) →
      pollList ready l tiles
        = (tiles, l.filter (fun e => !ready e), l.countP (fun e => ready e)) := by
  intro l
  induction l with
  | nil => intro tiles _; simp [pollList]
  | cons e rest ih =>
    intro tiles h
    by_cases hr : ready e = true
    · have happ : applyBuild tiles e = tiles := by
        unfold applyBuild
        rw [h e (List.mem_cons_self e rest) hr]
      conv_lhs => unfold pollList
      rw [if_pos hr, happ]
      rw [ih tiles (fun e' he' => h e' (List.mem_cons_of_mem e he'))]
      rw [List.filter_cons, List.countP_cons]
      simp [hr]
    · have hrf : ready e = false := by simpa using hr
      conv_lhs => unfold pollList
      rw [if_neg hr]
      rw [ih tiles (fun e' he' => h e' (List.mem_cons_of_mem e he'))]
      rw [List.filter_cons, List.countP_cons]
      simp [hrf]

/-- C9: when every ready pending build refers to a coordinate that is no
longer in the tile map (e.g. after `clear()`), `poll_async_builds` leaves the
tile map untouched, removes exactly the ready entries from the pending list,
and still counts each of them in the returned completion count. -/
theorem poll_async_builds_missing_tiles (ready : PendingBuild → Bool)
    (tm : TileManager)
    (h : ∀ e ∈ tm.pending_builds, ready e = true → tm.tiles e.coord = none) :
    (poll_async_builds ready tm).1.tiles = tm.tiles ∧
    (poll_async_builds ready tm).1.pending_builds
      = tm.pending_builds.filter (fun e => !ready e) ∧
    (poll_async_builds ready tm).2 = tm.pending_builds.countP (fun e => ready e) := by
  unfold poll_async_builds
  rw [pollList_all_missing ready tm.pending_builds tm.tiles h]
  exact ⟨rfl, rfl, rfl⟩

/-- Witness for C9: one ready pending build for coordinate `(5, 5, 0)` on an
empty tile map — it is discarded, unqueued and counted. -/
theorem poll_async_builds_missing_tiles_witness :
    (∀ e ∈ ({ pending_builds := [{ coord := { x := 5, y := 5 }, result := {} }] } :
        TileManager).pending_builds, (fun _ => true) e = true →
      ({ pending_builds := [{ coord := { x := 5, y := 5 }, result := {} }] } :
        TileManager).tiles e.coord = none) ∧
    (poll_async_builds (fun _ => true)
      { pending_builds := [{ coord := { x := 5, y := 5 }, result := {} }] }).1.tiles
      = ({ pending_builds := [{ coord := { x := 5, y := 5 }, result := {} }] } :
          TileManager).tiles ∧
    (poll_async_builds (fun _ => true)
      { pending_builds := [{ coord := { x := 5, y := 5 }, result := {} }] }).1.pending_builds
      = [] ∧
    (poll_async_builds (fun _ => true)
      { pending_builds := [{ coord := { x := 5, y := 5 }, result := {} }] }).2 = 1 := by
  have h := poll_async_builds_missing_tiles (fun _ => true)
    { pending_builds := [{ coord := { x := 5, y := 5 }, result := {} }] }
    (fun e _ _ => rfl)
  exact ⟨fun e _ _ => rfl, h.1, by rw [h.2.1]; rfl, by rw [h.2.2]; rfl⟩

/-! ### C3: no-drop tiling -/

/-- The list a tile-view `V` (roads, buildings, or areas) gives at `c`:
empty when the tile map has no tile there. -/
def valAt {α : Type} (V : Tile → List α) (tiles : TileCoord → Option Tile)
    (c : TileCoord) : List α :=
  match tiles c with
  | some t => V t
  | none => []

/-- The road list stored at `c`. -/
def roadsAt (tiles : TileCoord → Option Tile) (c : TileCoord) : List Road :=
  valAt Tile.roads tiles c

/-- The building list stored at `c`. -/
def buildingsAt (tiles : TileCoord → Option Tile) (c : TileCoord) : List Building :=
  valAt Tile.buildings tiles c

/-- The area list stored at `c`. -/
def areasAt (tiles : TileCoord → Option Tile) (c : TileCoord) : List Area :=
  valAt Tile.areas tiles c

/-- Reading through a pointwise map update. -/
lemma valAt_update {α : Type} (V : Tile → List α) (tiles : TileCoord → Option Tile)
    (c₀ : TileCoord) (t₀ : Tile) (c : TileCoord) :
    valAt V (fun c' => if c' = c₀ then some t₀ else tiles c') c
      = if c = c₀ then V t₀ else valAt V tiles c := by
  unfold valAt
  by_cases h : c = c₀
  · simp [h]
  · simp [h]

/-- Processing one entity's point list appends the entity exactly to the
tiles its points fall in (minus the already-seen ones), and leaves every
other tile's view unchanged. -/
lemma valAt_assignPoints {α : Type} (tm : TileManager) (add : Tile → Tile)
    (V : Tile → List α) (w : List α)
    (hTouch : ∀ tiles c, V (getOrCreateTile tm tiles c) = valAt V tiles c)
    (hAdd : ∀ t, V (add t) = V t ++ w) :
    ∀ (pts : List Pt) (seen : List TileCoord) (tiles : TileCoord → Option Tile)
      (c : TileCoord),
      valAt V (assignPoints tm add pts seen tiles) c
        = if c ∉ seen ∧ c ∈ pts.map (local_to_tile tm) then valAt V tiles c ++ w
          else valAt V tiles c := by
  intro pts
  induction pts with
  | nil =>
    intro seen tiles c
    rw [if_neg (by simp)]
    rfl
  | cons pt rest ih =>
    intro seen tiles c
    by_cases hc : local_to_tile tm pt ∈ seen
    · have hstep : assignPoints tm add (pt :: rest) seen tiles
          = assignPoints tm add rest seen tiles := by
        conv_lhs => unfold assignPoints
        rw [if_pos hc]
      rw [hstep, ih seen tiles c]
      by_cases h1 : c ∉ seen ∧ c ∈ rest.map (local_to_tile tm)
      · rw [if_pos h1, if_pos ⟨h1.1, by rw [List.map_cons]; exact List.mem_cons_of_mem _ h1.2⟩]
      · rw [if_neg h1, if_neg ?_]
        rintro ⟨hs, hm⟩
        rw [List.map_cons, List.mem_cons] at hm
        rcases hm with hm | hm
        · exact hs (hm ▸ hc)
        · exact h1 ⟨hs, hm⟩
    · have hstep : assignPoints tm add (pt :: rest) seen tiles
          = assignPoints tm add rest (local_to_tile tm pt :: seen)
            (fun c' => if c' = local_to_tile tm pt
              then some (add (getOrCreateTile tm tiles (local_to_tile tm pt)))
              else tiles c') := by
        conv_lhs => unfold assignPoints
        rw [if_neg hc]
      rw [hstep, ih _ _ c]
      have hval : valAt V
          (fun c' => if c' = local_to_tile tm pt
            then some (add (getOrCreateTile tm tiles (local_to_tile tm pt)))
            else tiles c') c
          = if c = local_to_tile tm pt then valAt V tiles (local_to_tile tm pt) ++ w
            else valAt V tiles c := by
        rw [valAt_update]
        by_cases h : c = local_to_tile tm pt
        · rw [if_pos h, if_pos h, hAdd, hTouch]
        · rw [if_neg h, if_neg h]
      by_cases h1 : c ∉ (local_to_tile tm pt :: seen) ∧ c ∈ rest.map (local_to_tile tm)
      · have hne : ¬ c = local_to_tile tm pt :=
          fun he => h1.1 (he ▸ List.mem_cons_self _ _)
        rw [if_pos h1, hval, if_neg hne,
          if_pos ⟨fun hs => h1.1 (List.mem_cons_of_mem _ hs),
            by rw [List.map_cons]; exact List.mem_cons_of_mem _ h1.2⟩]
      · rw [if_neg h1, hval]
        by_cases h2 : c = local_to_tile tm pt
        · rw [if_pos h2, h2,
            if_pos ⟨hc, by rw [List.map_cons]; exact List.mem_cons_self _ _⟩]
        · rw [if_neg h2, if_neg ?_]
          rintro ⟨hs, hm⟩
          rw [List.map_cons, List.mem_cons] at hm
          rcases hm with hm | hm
          · exact h2 hm
          · refine h1 ⟨?_, hm⟩
            intro hmem
            rw [List.mem_cons] at hmem
            rcases hmem with hmem | hmem
            · exact h2 hmem
            · exact hs hmem

/-- Road equality is decided classically (roads carry real-valued fields). -/
noncomputable instance : DecidableEq Road := fun _ _ => Classical.propDecidable _

/-- Building equality is decided classically. -/
noncomputable instance : DecidableEq Building := fun _ _ => Classical.propDecidable _

/-- Area equality is decided classically. -/
noncomputable instance : DecidableEq Area := fun _ _ => Classical.propDecidable _

/-- The roads list of a fetched-or-created tile is whatever the map already
stored there (`set_tile_bounds` and the coord/loaded updates do not touch
it, and a fresh tile starts empty). -/
lemma roads_getOrCreateTile (tm : TileManager) (tiles : TileCoord → Option Tile)
    (c : TileCoord) :
    Tile.roads (getOrCreateTile tm tiles c) = valAt Tile.roads tiles c := by
  unfold getOrCreateTile set_tile_bounds valAt
  cases tiles c <;> rfl

/-- The buildings list of a fetched-or-created tile is whatever the map
already stored there. -/
lemma buildings_getOrCreateTile (tm : TileManager) (tiles : TileCoord → Option Tile)
    (c : TileCoord) :
    Tile.buildings (getOrCreateTile tm tiles c) = valAt Tile.buildings tiles c := by
  unfold getOrCreateTile set_tile_bounds valAt
  cases tiles c <;> rfl

/-- The areas list of a fetched-or-created tile is whatever the map already
stored there. -/
lemma areas_getOrCreateTile (tm : TileManager) (tiles : TileCoord → Option Tile)
    (c : TileCoord) :
    Tile.areas (getOrCreateTile tm tiles c) = valAt Tile.areas tiles c := by
  unfold getOrCreateTile set_tile_bounds valAt
  cases tiles c <;> rfl

/-- `flatMap` of the constantly-empty function. -/
lemma flatMap_nil_fun {α β : Type} (l : List α) :
    l.flatMap (fun _ => ([] : List β)) = [] := by
  induction l with
  | nil => rfl
  | cons x xs ih => rw [List.flatMap_cons, ih]; rfl

/-- `flatMap` of the singleton function. -/
lemma flatMap_singleton_fun {α : Type} (l : List α) :
    l.flatMap (fun x => [x]) = l := by
  induction l with
  | nil => rfl
  | cons x xs ih => rw [List.flatMap_cons, ih]; rfl

/-- Folding one entity list through `assignEntities`: the view at `c` gains,
in input order, the contribution `w e` of every entity one of whose
geometry points falls in tile `c`. -/
lemma valAt_assignEntities {α β : Type} (tm : TileManager) (geom : β → List Pt)
    (upd : β → Tile → Tile) (V : Tile → List α) (w : β → List α)
    (hTouch : ∀ tiles c, V (getOrCreateTile tm tiles c) = valAt V tiles c)
    (hUpd : ∀ e t, V (upd e t) = V t ++ w e) :
    ∀ (es : List β) (tiles : TileCoord → Option Tile) (c : TileCoord),
      valAt V (assignEntities tm geom upd es tiles) c
        = valAt V tiles c
          ++ (es.filter
              (fun e => decide (c ∈ (geom e).map (local_to_tile tm)))).flatMap w := by
  intro es
  induction es with
  | nil => intro tiles c; simp [assignEntities]
  | cons e rest ih =>
    intro tiles c
    have hstep : assignEntities tm geom upd (e :: rest) tiles
        = assignEntities tm geom upd rest
            (if (geom e).isEmpty then tiles
              else assignPoints tm (upd e) (geom e) [] tiles) := by
      unfold assignEntities
      rw [List.foldl_cons]
    rw [hstep]
    by_cases hε : (geom e).isEmpty = true
    · have hnil : geom e = [] := List.isEmpty_iff.mp hε
      rw [if_pos hε, ih tiles c, List.filter_cons, if_neg (by simp [hnil])]
    · rw [if_neg hε, ih (assignPoints tm (upd e) (geom e) [] tiles) c,
        valAt_assignPoints tm (upd e) V (w e) hTouch (hUpd e) (geom e) [] tiles c]
      by_cases hm : c ∈ (geom e).map (local_to_tile tm)
      · rw [if_pos ⟨by simp, hm⟩, List.filter_cons, if_pos (by simpa using hm),
          List.flatMap_cons, List.append_assoc]
      · rw [if_neg (fun hh => hm hh.2), List.filter_cons, if_neg (by simpa using hm)]

/-- With a fresh tile map, after `assign_data` each tile stores exactly the
input roads (in input order, as full copies) one of whose polyline vertices
falls in it. -/
lemma roadsAt_assign_data (tm : TileManager) (data : ParsedOSMData)
    (ht : tm.tiles = fun _ => none) (c : TileCoord) :
    roadsAt (assign_data tm data).tiles c
      = data.roads.filter (fun r => decide (c ∈ r.polyline.map (local_to_tile tm))) := by
  show valAt Tile.roads (assign_data tm data).tiles c = _
  simp only [assign_data]
  rw [valAt_assignEntities tm Area.polygon
      (fun a t => { t with areas := t.areas ++ [a] }) Tile.roads
      (fun _ => ([] : List Road)) (roads_getOrCreateTile tm)
      (fun _ t => (List.append_nil t.roads).symm) data.areas _ c,
    flatMap_nil_fun, List.append_nil]
  rw [valAt_assignEntities tm Building.footprint
      (fun b t => { t with buildings := t.buildings ++ [b] }) Tile.roads
      (fun _ => ([] : List Road)) (roads_getOrCreateTile tm)
      (fun _ t => (List.append_nil t.roads).symm) data.buildings _ c,
    flatMap_nil_fun, List.append_nil]
  rw [valAt_assignEntities tm Road.polyline
      (fun r t => { t with roads := t.roads ++ [r] }) Tile.roads
      (fun r => [r]) (roads_getOrCreateTile tm)
      (fun _ _ => rfl) data.roads _ c,
    flatMap_singleton_fun, ht]
  have h0 : valAt Tile.roads (fun _ => none) c = ([] : List Road) := rfl
  rw [h0, List.nil_append]

/-- With a fresh tile map, after `assign_data` each tile stores exactly the
input buildings one of whose footprint vertices falls in it. -/
lemma buildingsAt_assign_data (tm : TileManager) (data : ParsedOSMData)
    (ht : tm.tiles = fun _ => none) (c : TileCoord) :
    buildingsAt (assign_data tm data).tiles c
      = data.buildings.filter
          (fun b => decide (c ∈ b.footprint.map (local_to_tile tm))) := by
  show valAt Tile.buildings (assign_data tm data).tiles c = _
  simp only [assign_data]
  rw [valAt_assignEntities tm Area.polygon
      (fun a t => { t with areas := t.areas ++ [a] }) Tile.buildings
      (fun _ => ([] : List Building)) (buildings_getOrCreateTile tm)
      (fun _ t => (List.append_nil t.buildings).symm) data.areas _ c,
    flatMap_nil_fun, List.append_nil]
  rw [valAt_assignEntities tm Building.footprint
      (fun b t => { t with buildings := t.buildings ++ [b] }) Tile.buildings
      (fun b => [b]) (buildings_getOrCreateTile tm)
      (fun _ _ => rfl) data.buildings _ c,
    flatMap_singleton_fun]
  rw [valAt_assignEntities tm Road.polyline
      (fun r t => { t with roads := t.roads ++ [r] }) Tile.buildings
      (fun _ => ([] : List Building)) (buildings_getOrCreateTile tm)
      (fun _ t => (List.append_nil t.buildings).symm) data.roads _ c,
    flatMap_nil_fun, List.append_nil, ht]
  have h0 : valAt Tile.buildings (fun _ => none) c = ([] : List Building) := rfl
  rw [h0, List.nil_append]

/-- With a fresh tile map, after `assign_data` each tile stores exactly the
input areas one of whose polygon vertices falls in it. -/
lemma areasAt_assign_data (tm : TileManager) (data : ParsedOSMData)
    (ht : tm.tiles = fun _ => none) (c : TileCoord) :
    areasAt (assign_data tm data).tiles c
      = data.areas.filter
          (fun a => decide (c ∈ a.polygon.map (local_to_tile tm))) := by
  show valAt Tile.areas (assign_data tm data).tiles c = _
  simp only [assign_data]
  rw [valAt_assignEntities tm Area.polygon
      (fun a t => { t with areas := t.areas ++ [a] }) Tile.areas
      (fun a => [a]) (areas_getOrCreateTile tm)
      (fun _ _ => rfl) data.areas _ c,
    flatMap_singleton_fun]
  rw [valAt_assignEntities tm Building.footprint
      (fun b t => { t with buildings := t.buildings ++ [b] }) Tile.areas
      (fun _ => ([] : List Area)) (areas_getOrCreateTile tm)
      (fun _ t => (List.append_nil t.areas).symm) data.buildings _ c,
    flatMap_nil_fun, List.append_nil]
  rw [valAt_assignEntities tm Road.polyline
      (fun r t => { t with roads := t.roads ++ [r] }) Tile.areas
      (fun _ => ([] : List Area)) (areas_getOrCreateTile tm)
      (fun _ t => (List.append_nil t.areas).symm) data.roads _ c,
    flatMap_nil_fun, List.append_nil, ht]
  have h0 : valAt Tile.areas (fun _ => none) c = ([] : List Area) := rfl
  rw [h0, List.nil_append]

/-- C3: starting from a fresh tile map, `assign_data` drops nothing — every
road, building and area with non-empty geometry ends up in at least one
tile's corresponding list; and for duplicate-free input lists each entity is
stored as one full (unclipped) copy in exactly the tiles one of its vertices
falls in: once per such tile, zero times elsewhere. -/
theorem assign_data_no_drop (tm : TileManager) (data : ParsedOSMData)
    (ht : tm.tiles = fun _ => none) :
    (∀ r ∈ data.roads, r.polyline ≠ [] →
        ∃ c, r ∈ roadsAt (assign_data tm data).tiles c) ∧
    (∀ b ∈ data.buildings, b.footprint ≠ [] →
        ∃ c, b ∈ buildingsAt (assign_data tm data).tiles c) ∧
    (∀ a ∈ data.areas, a.polygon ≠ [] →
        ∃ c, a ∈ areasAt (assign_data tm data).tiles c) ∧
    (data.roads.Nodup → ∀ r ∈ data.roads, ∀ c,
        (roadsAt (assign_data tm data).tiles c).count r
          = if c ∈ r.polyline.map (local_to_tile tm) then 1 else 0) ∧
    (data.buildings.Nodup → ∀ b ∈ data.buildings, ∀ c,
        (buildingsAt (assign_data tm data).tiles c).count b
          = if c ∈ b.footprint.map (local_to_tile tm) then 1 else 0) ∧
    (data.areas.Nodup → ∀ a ∈ data.areas, ∀ c,
        (areasAt (assign_data tm data).tiles c).count a
          = if c ∈ a.polygon.map (local_to_tile tm) then 1 else 0) := by
  refine ⟨?_, ?_, ?_, ?_, ?_, ?_⟩
  · intro r hr hne
    cases hl : r.polyline with
    | nil => exact absurd hl hne
    | cons p ps =>
      refine ⟨local_to_tile tm p, ?_⟩
      rw [roadsAt_assign_data tm data ht]
      exact List.mem_filter.mpr ⟨hr, by simp [hl]⟩
  · intro b hb hne
    cases hl : b.footprint with
    | nil => exact absurd hl hne
    | cons p ps =>
      refine ⟨local_to_tile tm p, ?_⟩
      rw [buildingsAt_assign_data tm data ht]
      exact List.mem_filter.mpr ⟨hb, by simp [hl]⟩
  · intro a ha hne
    cases hl : a.polygon with
    | nil => exact absurd hl hne
    | cons p ps =>
      refine ⟨local_to_tile tm p, ?_⟩
      rw [areasAt_assign_data tm data ht]
      exact List.mem_filter.mpr ⟨ha, by simp [hl]⟩
  · intro hnd r hr c
    rw [roadsAt_assign_data tm data ht c]
    by_cases hm : c ∈ r.polyline.map (local_to_tile tm)
    · rw [if_pos hm, List.count_filter (by simpa using hm),
        List.count_eq_one_of_mem hnd hr]
    · rw [if_neg hm, List.count_eq_zero.mpr ?_]
      intro hmem
      exact hm (by simpa using List.of_mem_filter hmem)
  · intro hnd b hb c
    rw [buildingsAt_assign_data tm data ht c]
    by_cases hm : c ∈ b.footprint.map (local_to_tile tm)
    · rw [if_pos hm, List.count_filter (by simpa using hm),
        List.count_eq_one_of_mem hnd hb]
    · rw [if_neg hm, List.count_eq_zero.mpr ?_]
      intro hmem
      exact hm (by simpa using List.of_mem_filter hmem)
  · intro hnd a ha c
    rw [areasAt_assign_data tm data ht c]
    by_cases hm : c ∈ a.polygon.map (local_to_tile tm)
    · rw [if_pos hm, List.count_filter (by simpa using hm),
        List.count_eq_one_of_mem hnd ha]
    · rw [if_neg hm, List.count_eq_zero.mpr ?_]
      intro hmem
      exact hm (by simpa using List.of_mem_filter hmem)

/-- Witness for C3 on a fresh manager and a single one-point road. -/
theorem assign_data_no_drop_witness :
    ({} : TileManager).tiles = (fun _ => none) ∧
    (∀ r ∈ ({ roads := [{ polyline := [((0 : ℝ), (0 : ℝ))] }] } : ParsedOSMData).roads,
      r.polyline ≠ [] →
      ∃ c, r ∈ roadsAt
        (assign_data {} { roads := [{ polyline := [((0 : ℝ), (0 : ℝ))] }] }).tiles c) ∧
    (({ roads := [{ polyline := [((0 : ℝ), (0 : ℝ))] }] } : ParsedOSMData).roads.Nodup →
      ∀ r ∈ ({ roads := [{ polyline := [((0 : ℝ), (0 : ℝ))] }] } : ParsedOSMData).roads,
      ∀ c, ((roadsAt
          (assign_data {} { roads := [{ polyline := [((0 : ℝ), (0 : ℝ))] }] }).tiles
          c).count r)
        = if c ∈ r.polyline.map (local_to_tile {}) then 1 else 0) := by
  have h := assign_data_no_drop {}
    { roads := [{ polyline := [((0 : ℝ), (0 : ℝ))] }] } rfl
  exact ⟨rfl, h.1, h.2.2.2.1⟩

end

end Stratum
